import Mathlib

/-!
Verification development for the stageflow orchestration engine.

Shallow embedding of the core of the repository:
  * src/stageflow/core/stages.py        (StageStatus, StageOutput and its constructors)
  * src/stageflow/stages/inputs.py      (StageInputs and its get method)
  * src/stageflow/stages/graph.py       (UnifiedStageGraph construction, _execute_node, _run_stage,
                                         _normalize_output, the scheduler loop, cancellation)
  * src/stageflow/stages/orchestrator.py (terminal-state mapping for graceful cancellation)
  * src/stageflow/pipeline/dag.py       (legacy StageGraph.run ambient-cancel branch)
  * src/stageflow/context/context_snapshot.py (ContextSnapshot.to_dict / from_dict)
  * src/stageflow/observability/observability.py (CircuitBreaker)
  * src/stageflow/pipeline/subpipeline.py (SubpipelineSpawner.cancel_with_children)

Python dynamic values are embedded as the inductive `Val` (a JSON-like type), Python
dicts as association lists with first-match lookup and in-place-update insertion, which
matches insertion-ordered Python dict semantics.  The concurrent scheduler loop is
embedded as a sequential executor parametrised by the order in which stage tasks
complete; every data-flow fact proved below is independent of that order.
-/

namespace Stageflow

/-- JSON-like runtime values, the embedding of dynamic Python values stored in
stage output data dictionaries. -/
inductive Val where
  | null : Val
  | s (v : String) : Val
  | i (n : Int) : Val
  | b (v : Bool) : Val
  | arr (xs : List Val) : Val
  | obj (fields : List (String × Val)) : Val

/-- Python truthiness of a `Val` (None, empty string, 0, False, empty containers are falsy). -/
def Val.truthy : Val → Bool
  | .null => false
  | .s v => v ≠ ""
  | .i n => n ≠ 0
  | .b v => v
  | .arr xs => ¬ xs.isEmpty
  | .obj fields => ¬ fields.isEmpty

/-- First-match association-list lookup: the embedding of Python dict indexing
(for dicts built without duplicate live keys the first match is the only match). -/
def alookup {α β : Type} [DecidableEq α] : List (α × β) → α → Option β
  | [], _ => none
  | (k, v) :: rest, key => if k = key then some v else alookup rest key

@[simp] theorem alookup_nil {α β : Type} [DecidableEq α] (key : α) :
    alookup ([] : List (α × β)) key = none := rfl

@[simp] theorem alookup_cons {α β : Type} [DecidableEq α] (k : α) (v : β)
    (rest : List (α × β)) (key : α) :
    alookup ((k, v) :: rest) key = if k = key then some v else alookup rest key := rfl

/-- Python dict assignment `d[k] = v`: replaces the value in place if the key is
present, otherwise appends at the end (insertion order preserved). -/
def dictSet {α β : Type} [DecidableEq α] : List (α × β) → α → β → List (α × β)
  | [], k, v => [(k, v)]
  | (k', v') :: rest, k, v =>
      if k' = k then (k, v) :: rest else (k', v') :: dictSet rest k v

/-- Python dict-literal merge `\x7b**base, **extra\x7d` restricted to the use sites in
core/stages.py: the entries of `extra` are assigned into `base` one by one. -/
def dictUpdate {α β : Type} [DecidableEq α] (base extra : List (α × β)) : List (α × β) :=
  extra.foldl (fun acc p => dictSet acc p.1 p.2) base

/-- StageStatus from src/stageflow/core/stages.py. -/
inductive StageStatus where
  | ok | skip | cancel | fail | retry
deriving DecidableEq, Repr

/-- StageOutput from src/stageflow/core/stages.py.  The `artifacts` and `events`
list fields are omitted: they are opaque payloads that the scheduler never reads
and no claim mentions. -/
structure StageOutput where
  status : StageStatus
  data : List (String × Val) := []
  error : Option String := none

/-- StageOutput.ok classmethod (`data or kwargs`; with no kwargs an absent dict is empty). -/
def StageOutput.okOut (data : List (String × Val)) : StageOutput :=
  ⟨StageStatus.ok, data, none⟩

/-- StageOutput.skip classmethod: status SKIP with data `\x7b"reason": reason, **extra\x7d`.
The reason parameter is a dynamic value because _run_stage passes whatever truthy
value it found under the skip_reason key. -/
def StageOutput.skipOut (reason : Val) (extra : List (String × Val)) : StageOutput :=
  ⟨StageStatus.skip, dictUpdate [("reason", reason)] extra, none⟩

/-- StageOutput.cancel classmethod: status CANCEL with data `\x7b"cancel_reason": reason, **extra\x7d`. -/
def StageOutput.cancelOut (reason : Val) (extra : List (String × Val)) : StageOutput :=
  ⟨StageStatus.cancel, dictUpdate [("cancel_reason", reason)] extra, none⟩

/-- StageOutput.fail classmethod. -/
def StageOutput.failOut (error : String) (data : List (String × Val)) : StageOutput :=
  ⟨StageStatus.fail, data, some error⟩

/-- StageOutput.retry classmethod. -/
def StageOutput.retryOut (error : String) (data : List (String × Val)) : StageOutput :=
  ⟨StageStatus.retry, data, some error⟩

/-- StageInputs from src/stageflow/stages/inputs.py.  The snapshot and ports fields
are opaque references that the scheduler threads through unread; the claims are
about prior_outputs, so only it is carried. -/
structure StageInputs where
  prior_outputs : List (String × StageOutput) := []

/-- StageInputs.get: searches all prior outputs in insertion order and returns the
first value found under the key (absent key gives the default None, embedded as
the Option none). -/
def priorSearch (key : String) : List (String × StageOutput) → Option Val
  | [] => none
  | (_, o) :: rest =>
      match alookup o.data key with
      | some v => some v
      | none => priorSearch key rest

/-- StageInputs.get body: delegate to the insertion-order search. -/
def StageInputs.get (inputs : StageInputs) (key : String) : Option Val :=
  priorSearch key inputs.prior_outputs

/-- StageInputs.get_from: value under a key of one named prior output. -/
def StageInputs.getFrom (inputs : StageInputs) (stage : String) (key : String) : Option Val :=
  match alookup inputs.prior_outputs stage with
  | none => none
  | some o => alookup o.data key

/-- StageKind from src/stageflow/core/stages.py (informational; never alters scheduling). -/
inductive StageKind where
  | transform | enrich | route | guard | work | agent
deriving DecidableEq, Repr

/-- The possible results of awaiting a stage runner, as seen by _run_stage:
the runner returns None, a plain dict, a StageOutput, a value of any other type
(carrying its type name for the TypeError message), or raises an exception. -/
inductive RunnerResult where
  | retNone : RunnerResult
  | retDict (d : List (String × Val)) : RunnerResult
  | retOutput (o : StageOutput) : RunnerResult
  | retOther (typeName : String) : RunnerResult
  | raises (msg : String) : RunnerResult

/-- UnifiedStageSpec from src/stageflow/stages/graph.py. -/
structure UnifiedStageSpec where
  name : String
  runner : StageInputs → RunnerResult
  kind : StageKind := StageKind.work
  dependencies : List String := []
  conditional : Bool := false

/-- Events emitted through ctx.emit_event by _run_stage. -/
inductive GEvent where
  | stageSkipped (stage : String) (reason : Val) : GEvent
  | stageCompleted (stage : String) (status : StageStatus) : GEvent

/-- UnifiedStageExecutionError carries the failing stage name and the message of the
wrapped original exception. -/
structure ExecError where
  stage : String
  msg : String
deriving DecidableEq, Repr

/-- Everything observable about one call of UnifiedStageGraph._run_stage: whether the
runner was invoked, the events emitted through the context, and either a normalized
StageOutput or the UnifiedStageExecutionError that escaped. -/
structure StageAttempt where
  invoked : Bool
  events : List GEvent
  outcome : Except ExecError StageOutput

/-- UnifiedStageGraph._normalize_output: None becomes StageOutput.ok(), a StageOutput
passes through unchanged, a dict becomes StageOutput.ok(data=dict), anything else
raises a TypeError (embedded as the error case carrying the message). -/
def normalizeOutput (name : String) : RunnerResult → Except String StageOutput
  | RunnerResult.retNone => Except.ok (StageOutput.okOut [])
  | RunnerResult.retOutput o => Except.ok o
  | RunnerResult.retDict d => Except.ok (StageOutput.okOut d)
  | RunnerResult.retOther typeName =>
      Except.error ("Stage " ++ name ++ " returned unsupported result type " ++ typeName)
  | RunnerResult.raises msg => Except.error msg

/-- Python `result.error or "Stage failed"` (None and the empty string are falsy). -/
def errorOr (e : Option String) (default : String) : String :=
  match e with
  | none => default
  | some s => if s = "" then default else s

/-- The truthy value found under skip_reason across the prior outputs, if any.
In _run_stage the first lookup, ctx.get_output_data, always misses because
_execute_node builds the stage context with a fresh empty output buffer, so only
inputs.get("skip_reason") matters. -/
def skipSignal (inputs : StageInputs) : Option Val :=
  match inputs.get "skip_reason" with
  | some v => if v.truthy then some v else none
  | none => none

/-- Body of UnifiedStageGraph._run_stage after the conditional-skip gate: the runner
result is normalized, a completion event is emitted, and a FAIL status is converted
into a UnifiedStageExecutionError naming the stage; a TypeError from normalization or
an exception raised by the runner is wrapped the same way. -/
def runStageBody (spec : UnifiedStageSpec) (inputs : StageInputs) : StageAttempt :=
  match normalizeOutput spec.name (spec.runner inputs) with
  | Except.error msg => ⟨true, [], Except.error ⟨spec.name, msg⟩⟩
  | Except.ok result =>
      if result.status = StageStatus.fail then
        ⟨true, [GEvent.stageCompleted spec.name result.status],
          Except.error ⟨spec.name, errorOr result.error "Stage failed"⟩⟩
      else
        ⟨true, [GEvent.stageCompleted spec.name result.status], Except.ok result⟩

/-- UnifiedStageGraph._run_stage.  Conditional stages short-circuit to a SKIP output
when a truthy skip_reason is visible in the dependency outputs; otherwise the body
runs the runner. -/
def runStage (spec : UnifiedStageSpec) (inputs : StageInputs) : StageAttempt :=
  if spec.conditional then
    match skipSignal inputs with
    | some v =>
        ⟨false, [GEvent.stageSkipped spec.name v], Except.ok (StageOutput.skipOut v [])⟩
    | none => runStageBody spec inputs
  else runStageBody spec inputs

/-- UnifiedStageGraph.__init__: the spec mapping is the Python dict comprehension
over the iterable, so a later spec silently replaces an earlier one with the same
name; only an empty mapping is rejected, with a ValueError (embedded as the error
case carrying the message). -/
def mkUnifiedStageGraph (specs : List UnifiedStageSpec) :
    Except String (List (String × UnifiedStageSpec)) :=
  let m := specs.foldl (fun acc spec => dictSet acc spec.name spec) []
  if m.isEmpty then
    Except.error "UnifiedStageGraph requires at least one UnifiedStageSpec"
  else
    Except.ok m

/-- Terminal result of UnifiedStageGraph.run: the completed map on normal return,
UnifiedPipelineCancelled (stage, reason, partial results) when a stage output had
status CANCEL, or the UnifiedStageExecutionError that escaped a stage task. -/
inductive RunResult where
  | completed (results : List (String × StageOutput)) : RunResult
  | cancelled (stage : String) (reason : Val) (results : List (String × StageOutput)) : RunResult
  | failed (stage : String) (msg : String) : RunResult

/-- Python `stage_output.data.get("cancel_reason", "Pipeline cancelled")` used when
the run loop raises UnifiedPipelineCancelled. -/
def cancelReasonOf (out : StageOutput) : Val :=
  (alookup out.data "cancel_reason").getD (Val.s "Pipeline cancelled")

/-- One record of the instrumented run: the stage name, the completed map at the
moment _execute_node ran for the stage, the StageInputs built for it, and the
observable result of _run_stage. -/
structure TraceEntry where
  stage : String
  pool : List (String × StageOutput)
  inputs : StageInputs
  attempt : StageAttempt

/-- UnifiedStageGraph._execute_node: the prior_outputs dict comprehension keeps
exactly the completed entries whose key is a declared dependency, in completed-map
insertion order. -/
def buildPrior (spec : UnifiedStageSpec) (completed : List (String × StageOutput)) :
    List (String × StageOutput) :=
  completed.filter (fun p => spec.dependencies.contains p.1)

/-- The scheduler loop of UnifiedStageGraph.run, embedded sequentially: `order` is
the succession in which stage tasks finish (any interleaving the concurrent loop can
produce is some such order).  Each step rebuilds the StageInputs from the completed
map exactly as _execute_node does, runs _run_stage, records the output, raises
UnifiedPipelineCancelled on a CANCEL status, and propagates a stage error after
cancelling the remaining work.  The returned trace lists every executed node. -/
def runAux (g : List (String × UnifiedStageSpec)) :
    List String → List (String × StageOutput) → List TraceEntry →
    RunResult × List TraceEntry
  | [], completed, tr => (RunResult.completed completed, tr)
  | n :: rest, completed, tr =>
      match alookup g n with
      | none => (RunResult.failed n "unknown stage", tr)
      | some spec =>
          let inputs : StageInputs := ⟨buildPrior spec completed⟩
          let attempt := runStage spec inputs
          let tr1 := tr ++ [⟨n, completed, inputs, attempt⟩]
          match attempt.outcome with
          | Except.error e => (RunResult.failed e.stage e.msg, tr1)
          | Except.ok out =>
              let completed1 := completed ++ [(n, out)]
              if out.status = StageStatus.cancel then
                (RunResult.cancelled n (cancelReasonOf out) completed1, tr1)
              else
                runAux g rest completed1 tr1

/-- UnifiedStageGraph.run on a given task-completion order, with instrumentation. -/
def runGraph (g : List (String × UnifiedStageSpec)) (order : List String) :
    RunResult × List TraceEntry :=
  runAux g order [] []

/-- Decides that `order` is a schedule the concurrent loop can realize over the spec
map `g`: processed stages are distinct and present in `g`, and every declared
dependency of a stage has completed strictly earlier (the loop only creates the task
of a stage once the recorded completions cover its dependencies). -/
def validFrom (g : List (String × UnifiedStageSpec)) :
    List String → List String → Bool
  | _, [] => true
  | done, n :: rest =>
      match alookup g n with
      | none => false
      | some spec =>
          !(done.contains n) &&
          spec.dependencies.all (fun d => done.contains d) &&
          validFrom g (done ++ [n]) rest

/-- A valid schedule starts with nothing completed. -/
def validSchedule (g : List (String × UnifiedStageSpec)) (order : List String) : Bool :=
  validFrom g [] order

/-- Pipeline-run row updates performed by the orchestrator for a terminal state. -/
structure RunRecord where
  status : String
  success : Bool
  error : Option String
deriving DecidableEq, Repr

/-- PipelineOrchestrator._mark_cancelled_gracefully: emits pipeline.cancelled_gracefully
and updates the run row to status cancelled, success True, error None. -/
def markCancelledGracefully : RunRecord :=
  ⟨"cancelled", true, none⟩

/-- The orchestrator maps the terminal outcome of the graph to a run record:
UnifiedPipelineCancelled is caught and routed to _mark_cancelled_gracefully; any
other exception goes to _mark_failed (status failed, success False, the message
persisted); a normal return goes to _mark_completed (with no success key amongst
the outputs, success True and error None). -/
def orchestratorTerminal : RunResult → RunRecord
  | RunResult.completed _ => ⟨"completed", true, none⟩
  | RunResult.cancelled _ _ _ => markCancelledGracefully
  | RunResult.failed _ msg => ⟨"failed", false, some msg⟩

/-- Modelled from the spec: StageResult, defined in stageflow/stages/result.py which is
absent from the source tree (only its call sites in src/stageflow/pipeline/dag.py are
available).  Per the spec a stage result carries the stage name, a status string, a
data mapping and an optional error; the timestamps are omitted (wall-clock only). -/
structure LegacyStageResult where
  name : String
  status : String
  data : List (String × Val)
  error : Option String

/-- Legacy StageSpec from src/stageflow/pipeline/dag.py.  The per-stage execution
(interceptor chain, conditional skip on skip_assessment, normalization) is the
subject of other components; here it is abstracted to its observable outcome: the
StageResult recorded on success, or the error message of the StageExecutionError
that the wrapped execution raises. -/
structure LegacyStageSpec where
  name : String
  outcome : Except String LegacyStageResult
  dependencies : List String
  conditional : Bool

/-- The synthetic result the legacy scheduler records for a stage that had not
completed when the ambient cancellation signal was observed. -/
def syntheticCanceled (name : String) : LegacyStageResult :=
  ⟨name, "failed", [], some "Pipeline canceled"⟩

/-- Python `for name in set(self._specs) - set(completed)`: every spec name without a
completed entry gets the synthetic failed result (set iteration order embedded as
spec-map order; no claim depends on it). -/
def legacyFill (g : List (String × LegacyStageSpec))
    (completed : List (String × LegacyStageResult)) : List (String × LegacyStageResult) :=
  ((g.map Prod.fst).filter (fun nm => (alookup completed nm).isNone)).map
    (fun nm => (nm, syntheticCanceled nm))

/-- The legacy StageGraph.run loop embedded sequentially: `order` is the succession
in which stage tasks finish and `canceled i` is the value of ctx.canceled observed at
the top of loop iteration i.  When the signal is observed the loop records the
synthetic failed result for every not-yet-completed stage, breaks, and returns the
completed map; otherwise it runs the next stage and records its result, propagating
a stage error as StageExecutionError (stage, message). -/
def legacyRunAux (g : List (String × LegacyStageSpec)) (canceled : Nat → Bool) :
    List String → Nat → List (String × LegacyStageResult) →
    Except (String × String) (List (String × LegacyStageResult))
  | [], _, completed => Except.ok completed
  | n :: rest, i, completed =>
      if canceled i then
        Except.ok (completed ++ legacyFill g completed)
      else
        match alookup g n with
        | none => Except.error (n, "unknown stage")
        | some spec =>
            match spec.outcome with
            | Except.error msg => Except.error (n, msg)
            | Except.ok res => legacyRunAux g canceled rest (i + 1) (completed ++ [(n, res)])

/-- Legacy StageGraph.run from an empty completed map. -/
def legacyRun (g : List (String × LegacyStageSpec)) (canceled : Nat → Bool)
    (order : List String) : Except (String × String) (List (String × LegacyStageResult)) :=
  legacyRunAux g canceled order 0 []

/-- Circuit state strings from src/stageflow/observability/observability.py. -/
inductive CBMode where
  | closed | opened | halfOpen
deriving DecidableEq, Repr

/-- Per-key circuit breaker state dict: state, opened_at, failures deque (monotonic
timestamps embedded as integers), half_open_successes. -/
structure CBState where
  mode : CBMode
  openedAt : Option Int
  failures : List Int
  halfOpenSuccesses : Nat
deriving DecidableEq, Repr

/-- The fresh state dict created on first use of a key. -/
def initCBState : CBState :=
  ⟨CBMode.closed, none, [], 0⟩

/-- The settings surface read by the breaker. -/
structure CBSettings where
  failureThreshold : Nat
  failureWindowSeconds : Int
  openSeconds : Int
  halfOpenProbeCount : Nat
  observeOnly : Bool
deriving DecidableEq, Repr

/-- Transition events emitted through _try_emit_pipeline_event (the key identifying
payload fields are common to every emission and are omitted). -/
inductive CBEvent where
  | circuitOpened (reason : String) : CBEvent
  | circuitHalfOpened (reason : String) : CBEvent
  | circuitClosed (reason : String) : CBEvent
deriving DecidableEq, Repr

/-- Python `reason or default` on strings (None is not possible at the call sites;
the empty string falls back). -/
def reasonOr (reason default : String) : String :=
  if reason = "" then default else reason

/-- The pruning while-loop of record_failure: pop from the front of the deque while
the head timestamp is strictly before the cutoff. -/
def pruneFailures : List Int → Int → List Int
  | [], _ => []
  | t :: rest, cutoff => if t < cutoff then pruneFailures rest cutoff else t :: rest

/-- CircuitBreaker.record_failure for one key: a missing state dict is created and
then processed; in half_open any failure reopens the circuit; otherwise the deque is
pruned to the window and the new failure appended, and a closed circuit opens
(recording opened_at and emitting circuit.opened) exactly when the failure count
reaches the threshold. -/
def recordFailure (settings : CBSettings) (now : Int) (st0 : Option CBState)
    (reason : String) : CBState × List CBEvent :=
  let st := st0.getD initCBState
  if st.mode = CBMode.halfOpen then
    (⟨CBMode.opened, some now, st.failures, 0⟩,
      [CBEvent.circuitOpened (reasonOr reason "half_open_probe_failed")])
  else
    let cutoff := now - settings.failureWindowSeconds
    let failures := pruneFailures st.failures cutoff ++ [now]
    if st.mode = CBMode.closed ∧ failures.length ≥ settings.failureThreshold then
      (⟨CBMode.opened, some now, failures, 0⟩,
        [CBEvent.circuitOpened (reasonOr reason "failure_threshold_exceeded")])
    else
      (⟨st.mode, st.openedAt, failures, st.halfOpenSuccesses⟩, [])

/-- CircuitBreaker.record_success for one key: a missing state dict is created; in
half_open the probe counter increments and on reaching the probe count the circuit
closes (clearing opened_at and the failure deque, emitting circuit.closed); in any
other state nothing changes. -/
def recordSuccess (settings : CBSettings) (st0 : Option CBState) : CBState × List CBEvent :=
  match st0 with
  | none => (initCBState, [])
  | some st =>
      if st.mode = CBMode.halfOpen then
        let n := st.halfOpenSuccesses + 1
        if n ≥ settings.halfOpenProbeCount then
          (⟨CBMode.closed, none, [], 0⟩,
            [CBEvent.circuitClosed "half_open_probe_succeeded"])
        else
          (⟨st.mode, st.openedAt, st.failures, n⟩, [])
      else
        (st, [])

/-- CircuitBreaker.note_attempt for one key: creates a missing state dict; an open
circuit whose open duration has elapsed transitions to half_open with a
circuit.half_opened event. -/
def noteAttempt (settings : CBSettings) (now : Int) (st0 : Option CBState) :
    CBState × List CBEvent :=
  match st0 with
  | none => (initCBState, [])
  | some st =>
      if st.mode = CBMode.opened then
        match st.openedAt with
        | some t =>
            if now - t ≥ settings.openSeconds then
              (⟨CBMode.halfOpen, st.openedAt, st.failures, 0⟩,
                [CBEvent.circuitHalfOpened "open_duration_elapsed"])
            else (st, [])
        | none => (st, [])
      else (st, [])

/-- CircuitBreaker.is_open for one key: in observe-only mode it returns False before
reading any state; otherwise an absent or non-open state answers False, and an open
state whose open duration has elapsed transitions to half_open (emitting
circuit.half_opened) and answers False, else answers True. -/
def isOpenQuery (settings : CBSettings) (now : Int) (st0 : Option CBState) :
    Bool × Option CBState × List CBEvent :=
  if settings.observeOnly then
    (false, st0, [])
  else
    match st0 with
    | none => (false, none, [])
    | some st =>
        if st.mode = CBMode.opened then
          match st.openedAt with
          | some t =>
              if now - t ≥ settings.openSeconds then
                (false, some ⟨CBMode.halfOpen, st.openedAt, st.failures, 0⟩,
                  [CBEvent.circuitHalfOpened "open_duration_elapsed"])
              else (true, some st, [])
          | none => (true, some st, [])
        else (false, some st, [])

/-- Pipeline run identifiers (UUIDs) for the child-run tracker, embedded as naturals. -/
abbrev RunId : Type := Nat

/-- ChildRunTracker data from src/stageflow/pipeline/subpipeline.py: the parent to
children map and the child to parent map (the lock serializes access; the cascade
below reads a fixed tracker). -/
structure Tracker where
  childrenMap : List (RunId × List RunId)
  parentMap : List (RunId × RunId)

/-- ChildRunTracker.get_children (absent key gives the empty set). -/
def Tracker.getChildren (t : Tracker) (r : RunId) : List RunId :=
  (alookup t.childrenMap r).getD []

/-- ChildRunTracker.get_parent. -/
def Tracker.getParent (t : Tracker) (r : RunId) : Option RunId :=
  alookup t.parentMap r

/-- One pipeline.canceled event: the canceled run, its tracked parent, the reason and
the cascade depth passed to _emit_canceled. -/
structure CancelEvent where
  runId : RunId
  parent : Option RunId
  reason : String
  depth : Nat
deriving DecidableEq

/-- State threaded through one cancel_with_children call: the spawner-level
_canceled_runs set, the local `canceled` result list, and the events emitted so far
during this call. -/
structure CancelSt where
  canceledRuns : List RunId
  order : List RunId
  events : List CancelEvent

/-- Sequencing of the recursive child cancellations (the for-loop over children). -/
def cancelSeq (f : RunId → CancelSt → Option CancelSt) :
    List RunId → CancelSt → Option CancelSt
  | [], st => some st
  | c :: cs, st =>
      match f c st with
      | none => none
      | some st1 => cancelSeq f cs st1

/-- The marking step of cancel_recursive: a run not yet in _canceled_runs is added,
appended to the result list, and (when events are enabled) one pipeline.canceled
event is emitted with its tracked parent and cascade depth. -/
def markCanceled (t : Tracker) (emit : Bool) (reason : String) (cur : RunId)
    (depth : Nat) (st : CancelSt) : CancelSt :=
  if cur ∈ st.canceledRuns then st
  else
    ⟨cur :: st.canceledRuns, st.order ++ [cur],
      st.events ++ (if emit then [⟨cur, t.getParent cur, reason, depth⟩] else [])⟩

/-- SubpipelineSpawner.cancel_with_children inner cancel_recursive: children are
cancelled first (depth-first, depth increasing by one per level), then the current
run is marked.  The Python recursion diverges on a cyclic tracker, embedded here by
the fuel parameter: `none` means the recursion did not terminate within the fuel. -/
def cancelRec (t : Tracker) (emit : Bool) (reason : String) :
    Nat → RunId → Nat → CancelSt → Option CancelSt
  | 0, _, _, _ => none
  | fuel + 1, cur, depth, st =>
      match cancelSeq (fun c s => cancelRec t emit reason fuel c (depth + 1) s)
          (t.getChildren cur) st with
      | none => none
      | some st1 => some (markCanceled t emit reason cur depth st1)

/-- SubpipelineSpawner.cancel_with_children(run_id, reason): the cascade starts at
the root with depth 0 and a fresh result list and event buffer, against the current
_canceled_runs set. -/
def cancelWithChildren (t : Tracker) (emit : Bool) (reason : String) (fuel : Nat)
    (runId : RunId) (canceledRuns : List RunId) : Option CancelSt :=
  cancelRec t emit reason fuel runId 0 ⟨canceledRuns, [], []⟩

/-- Reachability at a recorded cascade depth: the root at depth 0, and a tracked
child of a node reachable at depth d is reachable at depth d + 1.  `descendants of
r` in the claims are the runs reachable from r at some positive depth. -/
inductive ReachAt (t : Tracker) (root : RunId) : RunId → Nat → Prop where
  | refl : ReachAt t root root 0
  | step {p : RunId} {d : Nat} {c : RunId} :
      ReachAt t root p d → c ∈ t.getChildren p → ReachAt t root c (d + 1)

/-- Message from stageflow/context/types.py.  That module is absent from the source
tree; modelled from the spec: ordered messages carry role, content, an optional
timestamp and a metadata map.  Timestamps (Python datetime) are embedded as their
canonical ISO-8601 strings, on which isoformat and fromisoformat are mutually
inverse and become the identity. -/
structure Message where
  role : String
  content : String
  timestamp : Option String
  metadata : List (String × Val)

/-- RoutingDecision from stageflow/context/types.py.  That module is absent from the
source tree; modelled from the spec: a routing decision carries agent id, pipeline
name, topology and an optional reason. -/
structure RoutingDecision where
  agent_id : String
  pipeline_name : String
  topology : String
  reason : Option String

/-- ProfileEnrichment from src/stageflow/context/enrichments.py.  UUIDs are embedded
as their canonical lowercase hex-dashed strings, on which str and the UUID
constructor are mutually inverse and become the identity. -/
structure ProfileEnrichment where
  user_id : String
  display_name : Option String
  preferences : List (String × Val)
  goals : List String

/-- MemoryEnrichment from src/stageflow/context/enrichments.py. -/
structure MemoryEnrichment where
  recent_topics : List String
  key_facts : List String
  interaction_history_summary : Option String

/-- DocumentEnrichment from src/stageflow/context/enrichments.py. -/
structure DocumentEnrichment where
  document_id : Option String
  document_type : Option String
  blocks : List Val
  metadata : List (String × Val)

/-- ContextSnapshot from src/stageflow/context/context_snapshot.py. -/
structure ContextSnapshot where
  pipeline_run_id : Option String
  request_id : Option String
  session_id : Option String
  user_id : Option String
  org_id : Option String
  interaction_id : Option String
  topology : Option String
  execution_mode : Option String
  messages : List Message
  routing_decision : Option RoutingDecision
  profile : Option ProfileEnrichment
  memory : Option MemoryEnrichment
  documents : List DocumentEnrichment
  web_results : List Val
  input_text : Option String
  input_audio_duration_ms : Option Int
  extensions : List (String × Val)
  created_at : String
  metadata : List (String × Val)

/-- Python `value if value else None` for an optional string field serialized as is. -/
def optStrVal : Option String → Val
  | some v => Val.s v
  | none => Val.null

/-- Serialization of the routing decision by ContextSnapshot.to_dict. -/
def routingToVal : Option RoutingDecision → Val
  | some rd =>
      Val.obj [("agent_id", Val.s rd.agent_id), ("pipeline_name", Val.s rd.pipeline_name),
        ("topology", Val.s rd.topology), ("reason", optStrVal rd.reason)]
  | none => Val.null

/-- Serialization of the profile enrichment by ContextSnapshot.to_dict. -/
def profileToVal : Option ProfileEnrichment → Val
  | some p =>
      Val.obj [("user_id", Val.s p.user_id), ("display_name", optStrVal p.display_name),
        ("preferences", Val.obj p.preferences), ("goals", Val.arr (p.goals.map Val.s))]
  | none => Val.null

/-- Serialization of the memory enrichment by ContextSnapshot.to_dict. -/
def memoryToVal : Option MemoryEnrichment → Val
  | some m =>
      Val.obj [("recent_topics", Val.arr (m.recent_topics.map Val.s)),
        ("key_facts", Val.arr (m.key_facts.map Val.s)),
        ("interaction_history_summary", optStrVal m.interaction_history_summary)]
  | none => Val.null

/-- Serialization of an optional integer slot by ContextSnapshot.to_dict. -/
def optIntVal : Option Int → Val
  | some n => Val.i n
  | none => Val.null

/-- Serialization of one message by ContextSnapshot.to_dict. -/
def messageToDict (m : Message) : Val :=
  Val.obj [("role", Val.s m.role), ("content", Val.s m.content),
    ("timestamp", optStrVal m.timestamp), ("metadata", Val.obj m.metadata)]

/-- Serialization of one document by ContextSnapshot.to_dict. -/
def documentToDict (d : DocumentEnrichment) : Val :=
  Val.obj [("document_id", optStrVal d.document_id),
    ("document_type", optStrVal d.document_type),
    ("blocks", Val.arr d.blocks), ("metadata", Val.obj d.metadata)]

/-- ContextSnapshot.to_dict: the JSON-serializable dict with one entry per field, in
source order; UUIDs are serialized through str and datetimes through isoformat, both
the identity in this embedding. -/
def ContextSnapshot.toDict (s : ContextSnapshot) : List (String × Val) :=
  [("pipeline_run_id", optStrVal s.pipeline_run_id),
   ("request_id", optStrVal s.request_id),
   ("session_id", optStrVal s.session_id),
   ("user_id", optStrVal s.user_id),
   ("org_id", optStrVal s.org_id),
   ("interaction_id", optStrVal s.interaction_id),
   ("topology", optStrVal s.topology),
   ("execution_mode", optStrVal s.execution_mode),
   ("messages", Val.arr (s.messages.map messageToDict)),
   ("routing_decision", routingToVal s.routing_decision),
   ("profile", profileToVal s.profile),
   ("memory", memoryToVal s.memory),
   ("documents", Val.arr (s.documents.map documentToDict)),
   ("web_results", Val.arr s.web_results),
   ("input_text", optStrVal s.input_text),
   ("input_audio_duration_ms", optIntVal s.input_audio_duration_ms),
   ("extensions", Val.obj s.extensions),
   ("created_at", Val.s s.created_at),
   ("metadata", Val.obj s.metadata)]

/-- Python `data.get(key, default)` on the serialized dict. -/
def dget (data : List (String × Val)) (key : String) (default : Val) : Val :=
  (alookup data key).getD default

/-- Expect a string value (a field that Python feeds to a string-typed slot). -/
def asStr : Val → Option String
  | Val.s v => some v
  | _ => none

/-- A value read with plain `.get(key)` and stored into an optional string field:
null or absent becomes None and a string passes through. -/
def asOptStr : Val → Option (Option String)
  | Val.null => some none
  | Val.s v => some (some v)
  | _ => none

/-- Expect an object (a field Python iterates or passes through as a dict). -/
def asObj : Val → Option (List (String × Val))
  | Val.obj d => some d
  | _ => none

/-- Expect an array. -/
def asArr : Val → Option (List Val)
  | Val.arr xs => some xs
  | _ => none

/-- Expect an array of strings (a list[str] slot). -/
def asStrList : List Val → Option (List String)
  | [] => some []
  | Val.s v :: rest => (asStrList rest).map (fun tl => v :: tl)
  | _ => none

/-- The message-parsing loop of ContextSnapshot.from_dict: role and content are
indexed directly, the timestamp is parsed only when truthy, and the metadata
defaults to the empty dict. -/
def parseMessage (v : Val) : Option Message := do
  let m ← asObj v
  let role ← (alookup m "role").bind asStr
  let content ← (alookup m "content").bind asStr
  let tsv := dget m "timestamp" Val.null
  let timestamp ←
    if tsv.truthy then (asStr tsv).map some
    else some none
  let metadata ← asObj (dget m "metadata" (Val.obj []))
  some ⟨role, content, timestamp, metadata⟩

/-- Parse the messages array in order. -/
def parseMessages : List Val → Option (List Message)
  | [] => some []
  | v :: rest =>
      match parseMessage v, parseMessages rest with
      | some m, some ms => some (m :: ms)
      | _, _ => none

/-- The document-parsing loop of ContextSnapshot.from_dict. -/
def parseDocument (v : Val) : Option DocumentEnrichment := do
  let d ← asObj v
  let document_id ← asOptStr (dget d "document_id" Val.null)
  let document_type ← asOptStr (dget d "document_type" Val.null)
  let blocks ← asArr (dget d "blocks" (Val.arr []))
  let metadata ← asObj (dget d "metadata" (Val.obj []))
  some ⟨document_id, document_type, blocks, metadata⟩

/-- Parse the documents array in order. -/
def parseDocuments : List Val → Option (List DocumentEnrichment)
  | [] => some []
  | v :: rest =>
      match parseDocument v, parseDocuments rest with
      | some d, some ds => some (d :: ds)
      | _, _ => none

/-- An identifier slot of from_dict: `UUID(data[k]) if data.get(k) else None`. -/
def parseOptUuid (data : List (String × Val)) (key : String) : Option (Option String) :=
  let v := dget data key Val.null
  if v.truthy then (asStr v).map some else some none

/-- The routing-decision branch of ContextSnapshot.from_dict. -/
def parseRouting (data : List (String × Val)) : Option (Option RoutingDecision) :=
  if (dget data "routing_decision" Val.null).truthy then
    match asObj (dget data "routing_decision" Val.null) with
    | none => none
    | some rd =>
        match (alookup rd "agent_id").bind asStr, (alookup rd "pipeline_name").bind asStr,
            (alookup rd "topology").bind asStr, asOptStr (dget rd "reason" Val.null) with
        | some agent_id, some pipeline_name, some topology, some reason =>
            some (some ⟨agent_id, pipeline_name, topology, reason⟩)
        | _, _, _, _ => none
  else some none

/-- The profile branch of ContextSnapshot.from_dict (a falsy user_id falls back to
the zero UUID). -/
def parseProfile (data : List (String × Val)) : Option (Option ProfileEnrichment) :=
  if (dget data "profile" Val.null).truthy then
    match asObj (dget data "profile" Val.null) with
    | none => none
    | some p =>
        let uid :=
          if (dget p "user_id" Val.null).truthy then asStr (dget p "user_id" Val.null)
          else some "00000000-0000-0000-0000-000000000000"
        match uid, asOptStr (dget p "display_name" Val.null),
            asObj (dget p "preferences" (Val.obj [])),
            (asArr (dget p "goals" (Val.arr []))).bind asStrList with
        | some user_id, some display_name, some preferences, some goals =>
            some (some ⟨user_id, display_name, preferences, goals⟩)
        | _, _, _, _ => none
  else some none

/-- The memory branch of ContextSnapshot.from_dict. -/
def parseMemory (data : List (String × Val)) : Option (Option MemoryEnrichment) :=
  if (dget data "memory" Val.null).truthy then
    match asObj (dget data "memory" Val.null) with
    | none => none
    | some m =>
        match (asArr (dget m "recent_topics" (Val.arr []))).bind asStrList,
            (asArr (dget m "key_facts" (Val.arr []))).bind asStrList,
            asOptStr (dget m "interaction_history_summary" Val.null) with
        | some recent_topics, some key_facts, some ihs =>
            some (some ⟨recent_topics, key_facts, ihs⟩)
        | _, _, _ => none
  else some none

/-- The created_at slot of from_dict: parse when truthy, else datetime.utcnow()
(passed in as `now`). -/
def parseCreatedAt (now : String) (data : List (String × Val)) : Option String :=
  if (dget data "created_at" Val.null).truthy then asStr (dget data "created_at" Val.null)
  else some now

/-- The input_audio_duration_ms slot of from_dict (plain passthrough get). -/
def parseOptIntSlot (data : List (String × Val)) (key : String) : Option (Option Int) :=
  match dget data key Val.null with
  | Val.null => some none
  | Val.i n => some (some n)
  | _ => none

/-- The enrichment-content half of ContextSnapshot.from_dict, read in source order:
messages, routing decision, profile, memory, documents, created_at. -/
def fromDictContent (now : String) (data : List (String × Val)) :
    Option (List Message × Option RoutingDecision × Option ProfileEnrichment ×
      Option MemoryEnrichment × List DocumentEnrichment × String) :=
  ((asArr (dget data "messages" (Val.arr []))).bind parseMessages).bind (fun messages =>
  (parseRouting data).bind (fun routing_decision =>
  (parseProfile data).bind (fun profile =>
  (parseMemory data).bind (fun memory =>
  ((asArr (dget data "documents" (Val.arr []))).bind parseDocuments).bind (fun documents =>
  (parseCreatedAt now data).bind (fun created_at =>
  some (messages, routing_decision, profile, memory, documents, created_at)))))))

/-- The six identifier slots of ContextSnapshot.from_dict, in source order. -/
def fromDictIds (data : List (String × Val)) :
    Option (Option String × Option String × Option String × Option String ×
      Option String × Option String) :=
  (parseOptUuid data "pipeline_run_id").bind (fun pipeline_run_id =>
  (parseOptUuid data "request_id").bind (fun request_id =>
  (parseOptUuid data "session_id").bind (fun session_id =>
  (parseOptUuid data "user_id").bind (fun user_id =>
  (parseOptUuid data "org_id").bind (fun org_id =>
  (parseOptUuid data "interaction_id").bind (fun interaction_id =>
  some (pipeline_run_id, request_id, session_id, user_id, org_id, interaction_id)))))))

/-- The remaining plain slots of ContextSnapshot.from_dict, in source order. -/
def fromDictMisc (data : List (String × Val)) :
    Option (Option String × Option String × List Val × Option String × Option Int ×
      List (String × Val) × List (String × Val)) :=
  (asOptStr (dget data "topology" Val.null)).bind (fun topology =>
  (asOptStr (dget data "execution_mode" Val.null)).bind (fun execution_mode =>
  (asArr (dget data "web_results" (Val.arr []))).bind (fun web_results =>
  (asOptStr (dget data "input_text" Val.null)).bind (fun input_text =>
  (parseOptIntSlot data "input_audio_duration_ms").bind (fun input_audio_duration_ms =>
  (asObj (dget data "extensions" (Val.obj []))).bind (fun extensions =>
  (asObj (dget data "metadata" (Val.obj []))).bind (fun metadata =>
  some (topology, execution_mode, web_results, input_text, input_audio_duration_ms,
    extensions, metadata))))))))

/-- ContextSnapshot.from_dict.  The fallible Python constructions (KeyError on a
missing role, a non-list messages value, and so on) are embedded as None; every
dict produced by to_dict parses.  When the created_at key is absent or falsy the
source falls back to datetime.utcnow(), passed here as `now`.  Each slot is read
exactly as in the source; the construction is split into three groups purely to
keep terms small. -/
def ContextSnapshot.fromDict (now : String) (data : List (String × Val)) :
    Option ContextSnapshot :=
  (fromDictContent now data).bind (fun content =>
  (fromDictIds data).bind (fun ids =>
  (fromDictMisc data).bind (fun misc =>
  match content, ids, misc with
  | (messages, routing_decision, profile, memory, documents, created_at),
    (pipeline_run_id, request_id, session_id, user_id, org_id, interaction_id),
    (topology, execution_mode, web_results, input_text, input_audio_duration_ms,
      extensions, metadata) =>
      some (ContextSnapshot.mk pipeline_run_id request_id session_id user_id org_id
        interaction_id topology execution_mode messages routing_decision profile
        memory documents web_results input_text input_audio_duration_ms extensions
        created_at metadata))))

/-- An optional string that is not the empty string (true of every serialized UUID
and ISO timestamp, which is what these slots hold in Python). -/
def nonEmptyOpt : Option String → Bool
  | some v => v ≠ ""
  | none => true

/-- A profile whose serialized UUID is not the empty string (always true of a Python
UUID). -/
def profileWf : Option ProfileEnrichment → Bool
  | some p => p.user_id ≠ ""
  | none => true

/-- Well-formedness of a snapshot as only Python can build one: UUID slots and
datetime slots never hold the empty string (str of a UUID and isoformat of a
datetime are never empty, and Python truthiness tests in from_dict distinguish
exactly the empty string). -/
def wfSnapshot (s : ContextSnapshot) : Bool :=
  nonEmptyOpt s.pipeline_run_id && nonEmptyOpt s.request_id &&
  nonEmptyOpt s.session_id && nonEmptyOpt s.user_id &&
  nonEmptyOpt s.org_id && nonEmptyOpt s.interaction_id &&
  profileWf s.profile &&
  decide (s.created_at ≠ "") &&
  s.messages.all (fun m => nonEmptyOpt m.timestamp)

/-! Association-list facts used throughout. -/

theorem alookup_dictSet {α β : Type} [DecidableEq α] (m : List (α × β)) (k key : α) (v : β) :
    alookup (dictSet m k v) key = if k = key then some v else alookup m key := by
  induction m with
  | nil => simp [dictSet]
  | cons hd tl ih =>
      obtain ⟨k', v'⟩ := hd
      by_cases hk : k' = k
      · subst hk
        by_cases hkey : k' = key <;> simp [dictSet, hkey]
      · by_cases hkey : k' = key
        · subst hkey
          simp [dictSet, hk, Ne.symm hk]
        · simp [dictSet, hk, hkey, ih]

theorem dictSet_ne_nil {α β : Type} [DecidableEq α] (m : List (α × β)) (k : α) (v : β) :
    dictSet m k v ≠ [] := by
  cases m with
  | nil => simp [dictSet]
  | cons hd tl =>
      obtain ⟨k', v'⟩ := hd
      by_cases hk : k' = k <;> simp [dictSet, hk]

theorem dictSet_keys {α β : Type} [DecidableEq α] (m : List (α × β)) (k : α) (v : β) :
    (dictSet m k v).map Prod.fst
      = if k ∈ m.map Prod.fst then m.map Prod.fst else m.map Prod.fst ++ [k] := by
  induction m with
  | nil => simp [dictSet]
  | cons hd tl ih =>
      obtain ⟨k', v'⟩ := hd
      by_cases hk : k' = k
      · subst hk
        simp [dictSet]
      · by_cases hmem : k ∈ tl.map Prod.fst <;>
          simp [dictSet, hk, Ne.symm hk, hmem, ih]

theorem dictSet_keys_nodup {α β : Type} [DecidableEq α] (m : List (α × β)) (k : α) (v : β)
    (h : (m.map Prod.fst).Nodup) : ((dictSet m k v).map Prod.fst).Nodup := by
  rw [dictSet_keys]
  by_cases hmem : k ∈ m.map Prod.fst
  · simpa [hmem]
  · simpa [hmem] using List.Nodup.append h (List.nodup_singleton k) (by simpa using hmem)

/-- The last spec in the list carrying a given name, if any: the Python dict
comprehension binds each name to it. -/
def lastSpecNamed (name : String) : List UnifiedStageSpec → Option UnifiedStageSpec
  | [] => none
  | s :: rest =>
      match lastSpecNamed name rest with
      | some s' => some s'
      | none => if s.name = name then some s else none

theorem alookup_foldl_dictSet (specs : List UnifiedStageSpec)
    (m : List (String × UnifiedStageSpec)) (name : String) :
    alookup (specs.foldl (fun acc spec => dictSet acc spec.name spec) m) name
      = match lastSpecNamed name specs with
        | some s => some s
        | none => alookup m name := by
  induction specs generalizing m with
  | nil => simp [lastSpecNamed]
  | cons s rest ih =>
      simp only [List.foldl_cons, lastSpecNamed]
      rw [ih]
      cases hlast : lastSpecNamed name rest with
      | some s' => simp
      | none =>
          simp only []
          rw [alookup_dictSet]
          by_cases hname : s.name = name <;> simp [hname]

theorem foldl_dictSet_ne_nil (specs : List UnifiedStageSpec)
    (m : List (String × UnifiedStageSpec)) (h : m ≠ []) :
    specs.foldl (fun acc spec => dictSet acc spec.name spec) m ≠ [] := by
  induction specs generalizing m with
  | nil => simpa
  | cons s rest ih => exact ih _ (dictSet_ne_nil _ _ _)

theorem foldl_dictSet_keys_nodup (specs : List UnifiedStageSpec)
    (m : List (String × UnifiedStageSpec)) (h : (m.map Prod.fst).Nodup) :
    ((specs.foldl (fun acc spec => dictSet acc spec.name spec) m).map Prod.fst).Nodup := by
  induction specs generalizing m with
  | nil => simpa
  | cons s rest ih => exact ih _ (dictSet_keys_nodup _ _ _ h)

/-- C9: constructing a UnifiedStageGraph from a spec list with duplicate names raises
no error; each name is bound once, to the last spec in the list carrying it (the
later definition silently replaces the earlier); only the empty spec list is
rejected, with a ValueError at construction time. -/
theorem claim_C9_duplicate_name_last_wins (specs : List UnifiedStageSpec) :
    (specs = [] →
      mkUnifiedStageGraph specs
        = Except.error "UnifiedStageGraph requires at least one UnifiedStageSpec")
    ∧ (specs ≠ [] →
        ∃ m, mkUnifiedStageGraph specs = Except.ok m
          ∧ ((m.map Prod.fst).Nodup
          ∧ ∀ name, alookup m name = lastSpecNamed name specs)) := by
  constructor
  · intro h
    subst h
    rfl
  · intro h
    refine ⟨specs.foldl (fun acc spec => dictSet acc spec.name spec) [], ?_, ?_, ?_⟩
    · have hne : specs.foldl (fun acc spec => dictSet acc spec.name spec) [] ≠ [] := by
        cases specs with
        | nil => exact absurd rfl h
        | cons s rest =>
            simpa using foldl_dictSet_ne_nil rest (dictSet [] s.name s) (dictSet_ne_nil _ _ _)
      simp only [mkUnifiedStageGraph]
      rw [if_neg (by simpa [List.isEmpty_iff] using hne)]
    · exact foldl_dictSet_keys_nodup specs [] (by simp)
    · intro name
      rw [alookup_foldl_dictSet]
      cases hlast : lastSpecNamed name specs <;> simp

/-- Spec used by the C9 witness: first occupant of the name. -/
def dupSpecEarly : UnifiedStageSpec :=
  ⟨"dup", fun _ => RunnerResult.retNone, StageKind.work, [], false⟩

/-- Spec used by the C9 witness: later occupant of the same name. -/
def dupSpecLate : UnifiedStageSpec :=
  ⟨"dup", fun _ => RunnerResult.retDict [("v", Val.i 2)], StageKind.work, [], false⟩

theorem claim_C9_witness :
    ([dupSpecEarly, dupSpecLate] ≠ ([] : List UnifiedStageSpec))
    ∧ ∃ m, mkUnifiedStageGraph [dupSpecEarly, dupSpecLate] = Except.ok m
        ∧ ((m.map Prod.fst).Nodup
        ∧ ∀ name, alookup m name = lastSpecNamed name [dupSpecEarly, dupSpecLate]) :=
  ⟨by simp, (claim_C9_duplicate_name_last_wins [dupSpecEarly, dupSpecLate]).2 (by simp)⟩

theorem pruneFailures_bound (l : List Int) (cutoff : Int) (h : l.Pairwise (· ≤ ·)) :
    ∀ x ∈ pruneFailures l cutoff, cutoff ≤ x := by
  induction l with
  | nil => simp [pruneFailures]
  | cons t rest ih =>
      intro x hx
      rw [pruneFailures] at hx
      by_cases ht : t < cutoff
      · rw [if_pos ht] at hx
        exact ih (List.Pairwise.of_cons h) x hx
      · rw [if_neg ht] at hx
        rcases List.mem_cons.mp hx with hx | hx
        · subst hx
          exact le_of_not_lt ht
        · exact le_trans (le_of_not_lt ht) (List.rel_of_pairwise_cons h hx)

/-- C6: for a key in the closed state, record_failure first prunes the failures deque
to timestamps within the window of now (given the deque is sorted, as appending
monotonic timestamps keeps it) and appends the new failure; the state transitions to
open, records opened_at = now and emits exactly one circuit.opened event if and only
if the pruned count reaches the threshold; otherwise it stays closed and emits
nothing. -/
theorem claim_C6_closed_failure_transition (settings : CBSettings) (now : Int)
    (st : CBState) (reason : String) (h : st.mode = CBMode.closed) :
    (recordFailure settings now (some st) reason).1.failures
        = pruneFailures st.failures (now - settings.failureWindowSeconds) ++ [now]
    ∧ ((recordFailure settings now (some st) reason).1.mode = CBMode.opened
        ↔ settings.failureThreshold
            ≤ (pruneFailures st.failures (now - settings.failureWindowSeconds)
                ++ [now]).length)
    ∧ (settings.failureThreshold
          ≤ (pruneFailures st.failures (now - settings.failureWindowSeconds)
              ++ [now]).length →
        recordFailure settings now (some st) reason
          = (⟨CBMode.opened, some now,
                pruneFailures st.failures (now - settings.failureWindowSeconds) ++ [now], 0⟩,
              [CBEvent.circuitOpened (reasonOr reason "failure_threshold_exceeded")]))
    ∧ ((pruneFailures st.failures (now - settings.failureWindowSeconds) ++ [now]).length
          < settings.failureThreshold →
        recordFailure settings now (some st) reason
          = (⟨CBMode.closed, st.openedAt,
                pruneFailures st.failures (now - settings.failureWindowSeconds) ++ [now],
                st.halfOpenSuccesses⟩, []))
    ∧ (st.failures.Pairwise (· ≤ ·) →
        ∀ x ∈ pruneFailures st.failures (now - settings.failureWindowSeconds),
          now - settings.failureWindowSeconds ≤ x) := by
  have hmode : ¬ st.mode = CBMode.halfOpen := by
    rw [h]
    intro hcon
    cases hcon
  by_cases hthr : settings.failureThreshold
      ≤ (pruneFailures st.failures (now - settings.failureWindowSeconds) ++ [now]).length
  · have hthr1 := hthr
    simp only [List.length_append, List.length_singleton] at hthr1
    refine ⟨?_, ?_, ?_, ?_, ?_⟩
    · simp [recordFailure, hmode, h, hthr1]
    · simp [recordFailure, hmode, h, hthr1, hthr]
    · intro _
      simp [recordFailure, hmode, h, hthr1]
    · intro hlt
      exact absurd hthr (not_le.mpr hlt)
    · intro hs
      exact pruneFailures_bound _ _ hs
  · have hthr1 := hthr
    simp only [List.length_append, List.length_singleton] at hthr1
    refine ⟨?_, ?_, ?_, ?_, ?_⟩
    · simp [recordFailure, hmode, h, hthr1]
    · simp [recordFailure, hmode, h, hthr1, hthr]
    · intro hge
      exact absurd hge hthr
    · intro _
      simp [recordFailure, hmode, h, hthr1]
    · intro hs
      exact pruneFailures_bound _ _ hs

/-- Settings used by the C6 witness. -/
def cbNarrow : CBSettings := ⟨2, 60, 30, 3, false⟩

/-- Closed state with one prior failure, used by the C6 witness. -/
def cbClosedOne : CBState := ⟨CBMode.closed, none, [10], 0⟩

theorem claim_C6_witness :
    cbClosedOne.mode = CBMode.closed
    ∧ ((recordFailure cbNarrow 20 (some cbClosedOne) "boom").1.failures
          = pruneFailures cbClosedOne.failures (20 - cbNarrow.failureWindowSeconds) ++ [20]
        ∧ ((recordFailure cbNarrow 20 (some cbClosedOne) "boom").1.mode = CBMode.opened
            ↔ cbNarrow.failureThreshold
                ≤ (pruneFailures cbClosedOne.failures (20 - cbNarrow.failureWindowSeconds)
                    ++ [20]).length)
        ∧ (cbNarrow.failureThreshold
              ≤ (pruneFailures cbClosedOne.failures (20 - cbNarrow.failureWindowSeconds)
                  ++ [20]).length →
            recordFailure cbNarrow 20 (some cbClosedOne) "boom"
              = (⟨CBMode.opened, some 20,
                    pruneFailures cbClosedOne.failures (20 - cbNarrow.failureWindowSeconds)
                      ++ [20], 0⟩,
                  [CBEvent.circuitOpened (reasonOr "boom" "failure_threshold_exceeded")]))
        ∧ ((pruneFailures cbClosedOne.failures (20 - cbNarrow.failureWindowSeconds)
              ++ [20]).length < cbNarrow.failureThreshold →
            recordFailure cbNarrow 20 (some cbClosedOne) "boom"
              = (⟨CBMode.closed, cbClosedOne.openedAt,
                    pruneFailures cbClosedOne.failures (20 - cbNarrow.failureWindowSeconds)
                      ++ [20], cbClosedOne.halfOpenSuccesses⟩, []))
        ∧ (cbClosedOne.failures.Pairwise (· ≤ ·) →
            ∀ x ∈ pruneFailures cbClosedOne.failures (20 - cbNarrow.failureWindowSeconds),
              20 - cbNarrow.failureWindowSeconds ≤ x)) :=
  ⟨rfl, claim_C6_closed_failure_transition cbNarrow 20 cbClosedOne "boom" rfl⟩

/-- C7: with circuit_breaker_observe_only set, is_open answers false for every key and
every stored state, while record_failure, record_success and note_attempt behave
exactly as with the flag clear: the per-key state keeps being maintained and the
transition events keep being emitted. -/
theorem claim_C7_observe_only (settings : CBSettings) (h : settings.observeOnly = true) :
    (∀ now st0, (isOpenQuery settings now st0).1 = false)
    ∧ (∀ now st0 reason,
        recordFailure settings now st0 reason
          = recordFailure ⟨settings.failureThreshold, settings.failureWindowSeconds,
              settings.openSeconds, settings.halfOpenProbeCount, false⟩ now st0 reason)
    ∧ (∀ st0, recordSuccess settings st0
        = recordSuccess ⟨settings.failureThreshold, settings.failureWindowSeconds,
            settings.openSeconds, settings.halfOpenProbeCount, false⟩ st0)
    ∧ (∀ now st0, noteAttempt settings now st0
        = noteAttempt ⟨settings.failureThreshold, settings.failureWindowSeconds,
            settings.openSeconds, settings.halfOpenProbeCount, false⟩ now st0) := by
  obtain ⟨a, b, c, d, o⟩ := settings
  simp only [] at h
  subst h
  exact ⟨fun now st0 => rfl, fun now st0 reason => rfl, fun st0 => rfl, fun now st0 => rfl⟩

/-- Observe-only settings used by the C7 witness. -/
def cbObserve : CBSettings := ⟨5, 60, 30, 3, true⟩

/-- An open state used by the C7 witness: is_open still answers false on it. -/
def cbOpenNow : CBState := ⟨CBMode.opened, some 0, [0], 0⟩

theorem claim_C7_witness :
    cbObserve.observeOnly = true ∧ (isOpenQuery cbObserve 1 (some cbOpenNow)).1 = false :=
  ⟨rfl, (claim_C7_observe_only cbObserve rfl).1 1 (some cbOpenNow)⟩

theorem alookup_append {α β : Type} [DecidableEq α] (l1 l2 : List (α × β)) (k : α) :
    alookup (l1 ++ l2) k
      = match alookup l1 k with
        | some v => some v
        | none => alookup l2 k := by
  induction l1 with
  | nil => simp
  | cons hd tl ih =>
      obtain ⟨k', v'⟩ := hd
      by_cases hk : k' = k <;> simp [hk, ih]

theorem alookup_isSome_iff_mem {α β : Type} [DecidableEq α] (l : List (α × β)) (k : α) :
    (alookup l k).isSome ↔ k ∈ l.map Prod.fst := by
  induction l with
  | nil => simp
  | cons hd tl ih =>
      obtain ⟨k', v'⟩ := hd
      by_cases hk : k' = k
      · subst hk
        simp
      · simp [hk, ih, Ne.symm hk]

theorem alookup_filter_key {α β : Type} [DecidableEq α] (l : List (α × β)) (f : α → Bool)
    (k : α) :
    alookup (l.filter (fun p => f p.1)) k = if f k then alookup l k else none := by
  induction l with
  | nil => simp
  | cons hd tl ih =>
      obtain ⟨k', v'⟩ := hd
      by_cases hf : f k'
      · by_cases hk : k' = k
        · subst hk
          simp [hf, ih]
        · simp [hf, hk, ih]
      · by_cases hk : k' = k
        · subst hk
          simp [hf, ih, List.filter_cons, Bool.not_eq_true]
        · simp [hf, hk, ih, List.filter_cons, Bool.not_eq_true]

/-- The trace entry the loop appends when it executes stage `n` over pool `completed`. -/
def mkEntry (spec : UnifiedStageSpec) (n : String)
    (completed : List (String × StageOutput)) : TraceEntry :=
  ⟨n, completed, ⟨buildPrior spec completed⟩, runStage spec ⟨buildPrior spec completed⟩⟩

theorem runAux_cons_none {g : List (String × UnifiedStageSpec)} {n : String}
    (rest : List String) (completed : List (String × StageOutput)) (tr : List TraceEntry)
    (hspec : alookup g n = none) :
    runAux g (n :: rest) completed tr = (RunResult.failed n "unknown stage", tr) := by
  simp only [runAux, hspec]

theorem runAux_cons_error {g : List (String × UnifiedStageSpec)} {n : String}
    {spec : UnifiedStageSpec} {err : ExecError}
    (rest : List String) (completed : List (String × StageOutput)) (tr : List TraceEntry)
    (hspec : alookup g n = some spec)
    (houtc : (runStage spec ⟨buildPrior spec completed⟩).outcome = Except.error err) :
    runAux g (n :: rest) completed tr
      = (RunResult.failed err.stage err.msg, tr ++ [mkEntry spec n completed]) := by
  simp only [runAux, hspec, houtc, mkEntry]

theorem runAux_cons_cancel {g : List (String × UnifiedStageSpec)} {n : String}
    {spec : UnifiedStageSpec} {out : StageOutput}
    (rest : List String) (completed : List (String × StageOutput)) (tr : List TraceEntry)
    (hspec : alookup g n = some spec)
    (houtc : (runStage spec ⟨buildPrior spec completed⟩).outcome = Except.ok out)
    (hst : out.status = StageStatus.cancel) :
    runAux g (n :: rest) completed tr
      = (RunResult.cancelled n (cancelReasonOf out) (completed ++ [(n, out)]),
          tr ++ [mkEntry spec n completed]) := by
  simp only [runAux, hspec, houtc, mkEntry, hst, if_pos]

theorem runAux_cons_step {g : List (String × UnifiedStageSpec)} {n : String}
    {spec : UnifiedStageSpec} {out : StageOutput}
    (rest : List String) (completed : List (String × StageOutput)) (tr : List TraceEntry)
    (hspec : alookup g n = some spec)
    (houtc : (runStage spec ⟨buildPrior spec completed⟩).outcome = Except.ok out)
    (hst : ¬ out.status = StageStatus.cancel) :
    runAux g (n :: rest) completed tr
      = runAux g rest (completed ++ [(n, out)]) (tr ++ [mkEntry spec n completed]) := by
  simp [runAux, hspec, houtc, mkEntry, hst]

/-- A trace entry is shaped by the loop: its stage is in the graph, its inputs are the
dependency-filtered view of its pool, and its attempt is _run_stage on those inputs. -/
def EntryGood (g : List (String × UnifiedStageSpec)) (e : TraceEntry) : Prop :=
  ∃ spec, alookup g e.stage = some spec
    ∧ e.inputs = ⟨buildPrior spec e.pool⟩
    ∧ e.attempt = runStage spec e.inputs

theorem mkEntry_good {g : List (String × UnifiedStageSpec)} {n : String}
    {spec : UnifiedStageSpec} (completed : List (String × StageOutput))
    (hspec : alookup g n = some spec) : EntryGood g (mkEntry spec n completed) :=
  ⟨spec, hspec, rfl, rfl⟩

theorem runAux_entry_good (g : List (String × UnifiedStageSpec)) :
    ∀ (order : List String) (completed : List (String × StageOutput)) (tr : List TraceEntry),
      (∀ e ∈ tr, EntryGood g e) →
      ∀ e ∈ (runAux g order completed tr).2, EntryGood g e := by
  intro order
  induction order with
  | nil =>
      intro completed tr htr e he
      exact htr e he
  | cons n rest ih =>
      intro completed tr htr e he
      cases hspec : alookup g n with
      | none =>
          rw [runAux_cons_none rest completed tr hspec] at he
          exact htr e he
      | some spec =>
          have htr1 : ∀ e ∈ tr ++ [mkEntry spec n completed], EntryGood g e := by
            intro e' he'
            rcases List.mem_append.mp he' with h' | h'
            · exact htr e' h'
            · rcases List.mem_singleton.mp h' with rfl
              exact mkEntry_good completed hspec
          cases houtc : (runStage spec ⟨buildPrior spec completed⟩).outcome with
          | error err =>
              rw [runAux_cons_error rest completed tr hspec houtc] at he
              exact htr1 e he
          | ok out =>
              by_cases hst : out.status = StageStatus.cancel
              · rw [runAux_cons_cancel rest completed tr hspec houtc hst] at he
                exact htr1 e he
              · rw [runAux_cons_step rest completed tr hspec houtc hst] at he
                exact ih _ _ htr1 e he

theorem contains_iff_mem (l : List String) (a : String) : l.contains a = true ↔ a ∈ l := by
  induction l with
  | nil => simp
  | cons hd tl ih => simp [List.contains_cons] at ih ⊢

/-- If a stage output with status CANCEL appears in the trace, the run terminates by
raising UnifiedPipelineCancelled with that stage, the reason looked up under
cancel_reason, and the completed map extended with the cancelling stage. -/
theorem runAux_cancel_result (g : List (String × UnifiedStageSpec)) :
    ∀ (order : List String) (completed : List (String × StageOutput)) (tr : List TraceEntry)
      (e : TraceEntry) (out : StageOutput),
      e ∈ (runAux g order completed tr).2 → e ∉ tr →
      e.attempt.outcome = Except.ok out → out.status = StageStatus.cancel →
      (runAux g order completed tr).1
        = RunResult.cancelled e.stage (cancelReasonOf out) (e.pool ++ [(e.stage, out)]) := by
  intro order
  induction order with
  | nil =>
      intro completed tr e out he hnot hok hst
      exact absurd he hnot
  | cons n rest ih =>
      intro completed tr e out he hnot hok hst
      cases hspec : alookup g n with
      | none =>
          rw [runAux_cons_none rest completed tr hspec] at he ⊢
          exact absurd he hnot
      | some spec =>
          cases houtc : (runStage spec ⟨buildPrior spec completed⟩).outcome with
          | error err =>
              rw [runAux_cons_error rest completed tr hspec houtc] at he ⊢
              rcases List.mem_append.mp he with h' | h'
              · exact absurd h' hnot
              · rcases List.mem_singleton.mp h' with rfl
                rw [show (mkEntry spec n completed).attempt
                    = runStage spec ⟨buildPrior spec completed⟩ from rfl, houtc] at hok
                cases hok
          | ok out0 =>
              by_cases hcan : out0.status = StageStatus.cancel
              · rw [runAux_cons_cancel rest completed tr hspec houtc hcan] at he ⊢
                rcases List.mem_append.mp he with h' | h'
                · -- an old entry cannot be the cancelling one here; but the conclusion
                  -- is about the current run result, so we must rule this case out:
                  -- entries of tr satisfy e ∉ tr fails
                  exact absurd h' hnot
                · rcases List.mem_singleton.mp h' with rfl
                  rw [show (mkEntry spec n completed).attempt
                      = runStage spec ⟨buildPrior spec completed⟩ from rfl, houtc] at hok
                  cases hok
                  rfl
              · rw [runAux_cons_step rest completed tr hspec houtc hcan] at he ⊢
                by_cases heq : e = mkEntry spec n completed
                · subst heq
                  rw [show (mkEntry spec n completed).attempt
                      = runStage spec ⟨buildPrior spec completed⟩ from rfl, houtc] at hok
                  cases hok
                  exact absurd hst hcan
                · refine ih _ _ e out he ?_ hok hst
                  intro hmem
                  rcases List.mem_append.mp hmem with h' | h'
                  · exact hnot h'
                  · exact heq (List.mem_singleton.mp h')

/-- Every declared dependency of a trace entry has a completed output in its pool. -/
def DepsOk (g : List (String × UnifiedStageSpec)) (e : TraceEntry) : Prop :=
  ∀ spec, alookup g e.stage = some spec →
    ∀ d ∈ spec.dependencies, (alookup e.pool d).isSome

theorem runAux_deps_ok (g : List (String × UnifiedStageSpec)) :
    ∀ (order : List String) (done : List String) (completed : List (String × StageOutput))
      (tr : List TraceEntry),
      completed.map Prod.fst = done →
      validFrom g done order = true →
      (∀ e ∈ tr, DepsOk g e) →
      ∀ e ∈ (runAux g order completed tr).2, DepsOk g e := by
  intro order
  induction order with
  | nil =>
      intro done completed tr _ _ htr e he
      exact htr e he
  | cons n rest ih =>
      intro done completed tr hkeys hv htr e he
      cases hspec : alookup g n with
      | none =>
          rw [validFrom, hspec] at hv
          cases hv
      | some spec =>
          rw [validFrom, hspec] at hv
          simp only [Bool.and_eq_true, Bool.not_eq_true] at hv
          obtain ⟨⟨hn, hdeps⟩, hvrest⟩ := hv
          have hnewOk : DepsOk g (mkEntry spec n completed) := by
            intro spec' hspec' d hd
            have hsp : spec' = spec := Option.some.inj (hspec'.symm.trans hspec)
            rw [hsp] at hd
            have hdone : d ∈ done := by
              have hcd := List.all_eq_true.mp hdeps d hd
              exact (contains_iff_mem done d).mp hcd
            rw [show (mkEntry spec n completed).pool = completed from rfl,
              alookup_isSome_iff_mem, hkeys]
            exact hdone
          have htr1 : ∀ e ∈ tr ++ [mkEntry spec n completed], DepsOk g e := by
            intro e' he'
            rcases List.mem_append.mp he' with h' | h'
            · exact htr e' h'
            · rcases List.mem_singleton.mp h' with rfl
              exact hnewOk
          cases houtc : (runStage spec ⟨buildPrior spec completed⟩).outcome with
          | error err =>
              rw [runAux_cons_error rest completed tr hspec houtc] at he
              exact htr1 e he
          | ok out =>
              by_cases hcan : out.status = StageStatus.cancel
              · rw [runAux_cons_cancel rest completed tr hspec houtc hcan] at he
                exact htr1 e he
              · rw [runAux_cons_step rest completed tr hspec houtc hcan] at he
                refine ih (done ++ [n]) _ _ ?_ hvrest htr1 e he
                simp [hkeys]

/-- When the run returns normally, the completed map extends the accumulator and binds
every traced stage to the output its attempt produced. -/
theorem runAux_recorded (g : List (String × UnifiedStageSpec)) :
    ∀ (order : List String) (done : List String) (completed : List (String × StageOutput))
      (tr : List TraceEntry),
      completed.map Prod.fst = done →
      validFrom g done order = true →
      ∀ m, (runAux g order completed tr).1 = RunResult.completed m →
        (∃ suffix, m = completed ++ suffix)
        ∧ (∀ e ∈ (runAux g order completed tr).2, e ∉ tr →
            ∀ out, e.attempt.outcome = Except.ok out → alookup m e.stage = some out) := by
  intro order
  induction order with
  | nil =>
      intro done completed tr _ _ m hm
      rw [runAux] at hm
      cases hm
      refine ⟨⟨[], by simp⟩, ?_⟩
      intro e he hnot
      rw [runAux] at he
      exact absurd he hnot
  | cons n rest ih =>
      intro done completed tr hkeys hv m hm
      cases hspec : alookup g n with
      | none =>
          rw [validFrom, hspec] at hv
          cases hv
      | some spec =>
          rw [validFrom, hspec] at hv
          simp only [Bool.and_eq_true, Bool.not_eq_true] at hv
          obtain ⟨⟨hn, hdeps⟩, hvrest⟩ := hv
          cases houtc : (runStage spec ⟨buildPrior spec completed⟩).outcome with
          | error err =>
              rw [runAux_cons_error rest completed tr hspec houtc] at hm
              cases hm
          | ok out =>
              by_cases hcan : out.status = StageStatus.cancel
              · rw [runAux_cons_cancel rest completed tr hspec houtc hcan] at hm
                cases hm
              · rw [runAux_cons_step rest completed tr hspec houtc hcan] at hm ⊢
                have hkeys1 : (completed ++ [(n, out)]).map Prod.fst = done ++ [n] := by
                  simp [hkeys]
                obtain ⟨⟨suffix, hsuf⟩, hrec⟩ := ih (done ++ [n]) _ _ hkeys1 hvrest m hm
                have hmfull : m = completed ++ ((n, out) :: suffix) := by
                  rw [hsuf]
                  simp
                have hnone : alookup completed n = none := by
                  rw [← Option.not_isSome_iff_eq_none]
                  rw [alookup_isSome_iff_mem, hkeys]
                  intro hmem
                  have hcn : done.contains n = true := (contains_iff_mem done n).mpr hmem
                  simp [hcn] at hn
                  exact hn hmem
                refine ⟨⟨(n, out) :: suffix, hmfull⟩, ?_⟩
                intro e he hnot out' hok
                by_cases heq : e = mkEntry spec n completed
                · subst heq
                  rw [show (mkEntry spec n completed).attempt
                      = runStage spec ⟨buildPrior spec completed⟩ from rfl, houtc] at hok
                  cases hok
                  rw [show (mkEntry spec n completed).stage = n from rfl]
                  rw [hmfull, alookup_append, hnone]
                  simp
                · refine hrec e he ?_ out' hok
                  intro hmem
                  rcases List.mem_append.mp hmem with h' | h'
                  · exact hnot h'
                  · exact heq (List.mem_singleton.mp h')

/-- C1: for every run and every executed stage, the prior_outputs in its StageInputs
equals the restriction of the completed map to its declared dependencies: each
declared dependency is bound to its completed output (and has completed by
invocation time), and nothing else is bound. -/
theorem claim_C1_prior_outputs_exact (g : List (String × UnifiedStageSpec))
    (order : List String) (hv : validSchedule g order = true) (i : Nat) (e : TraceEntry)
    (he : (runGraph g order).2.get? i = some e) :
    ∃ spec, alookup g e.stage = some spec
      ∧ (∀ d ∈ spec.dependencies,
          alookup e.inputs.prior_outputs d = alookup e.pool d
            ∧ (alookup e.pool d).isSome)
      ∧ (∀ d, d ∉ spec.dependencies → alookup e.inputs.prior_outputs d = none) := by
  have hmem : e ∈ (runGraph g order).2 := List.get?_mem he
  obtain ⟨spec, hspec, hinp, _⟩ := runAux_entry_good g order [] [] (by simp) e hmem
  have hdeps := runAux_deps_ok g order [] [] [] (by simp) hv (by simp) e hmem
  have hpo : e.inputs.prior_outputs = buildPrior spec e.pool := by
    rw [hinp]
  refine ⟨spec, hspec, ?_, ?_⟩
  · intro d hd
    refine ⟨?_, hdeps spec hspec d hd⟩
    rw [hpo, buildPrior, alookup_filter_key]
    rw [if_pos ((contains_iff_mem _ _).mpr hd)]
  · intro d hd
    rw [hpo, buildPrior, alookup_filter_key]
    exact if_neg (fun hc => hd ((contains_iff_mem _ _).mp hc))

/-- First stage of the linear-chain witness graph. -/
def chainA : UnifiedStageSpec :=
  ⟨"a", fun _ => RunnerResult.retDict [("x", Val.i 1)], StageKind.work, [], false⟩

/-- Second stage of the linear-chain witness graph, depending on the first. -/
def chainB : UnifiedStageSpec :=
  ⟨"b", fun _ => RunnerResult.retNone, StageKind.work, ["a"], false⟩

/-- The linear-chain witness graph. -/
def gChain : List (String × UnifiedStageSpec) := [("a", chainA), ("b", chainB)]

/-- The trace entry of stage b in the chain run. -/
def chainEntryB : TraceEntry :=
  mkEntry chainB "b" [("a", StageOutput.okOut [("x", Val.i 1)])]

theorem claim_C1_witness :
    validSchedule gChain ["a", "b"] = true
    ∧ (runGraph gChain ["a", "b"]).2.get? 1 = some chainEntryB
    ∧ ∃ spec, alookup gChain chainEntryB.stage = some spec
        ∧ (∀ d ∈ spec.dependencies,
            alookup chainEntryB.inputs.prior_outputs d = alookup chainEntryB.pool d
              ∧ (alookup chainEntryB.pool d).isSome)
        ∧ (∀ d, d ∉ spec.dependencies →
            alookup chainEntryB.inputs.prior_outputs d = none) :=
  ⟨rfl, rfl, claim_C1_prior_outputs_exact gChain ["a", "b"] rfl 1 chainEntryB rfl⟩

/-- Stage whose output has status SKIP but no skip_reason key (the plain
StageOutput.skip constructor stores the reason under the key reason). -/
def skipDepA : UnifiedStageSpec :=
  ⟨"a", fun _ => RunnerResult.retOutput (StageOutput.skipOut (Val.s "no audio") []),
    StageKind.work, [], false⟩

/-- Conditional stage depending on the skipped stage. -/
def condB : UnifiedStageSpec :=
  ⟨"b", fun _ => RunnerResult.retDict [("ran", Val.b true)], StageKind.work, ["a"], true⟩

/-- Counterexample graph for C2. -/
def gSkip : List (String × UnifiedStageSpec) := [("a", skipDepA), ("b", condB)]

/-- C2 counterexample: the conditional stage b has a declared dependency a whose
recorded output has status SKIP, yet the run invokes the runner of b and records an
OK output for it — the source checks only for a truthy skip_reason data key, never
for the SKIP status. -/
theorem claim_C2_counterexample :
    condB.conditional = true
    ∧ condB.dependencies = ["a"]
    ∧ (StageOutput.skipOut (Val.s "no audio") []).status = StageStatus.skip
    ∧ (runGraph gSkip ["a", "b"]).1
        = RunResult.completed [("a", StageOutput.skipOut (Val.s "no audio") []),
            ("b", StageOutput.okOut [("ran", Val.b true)])]
    ∧ ((runGraph gSkip ["a", "b"]).2.map fun e => e.attempt.invoked) = [true, true] :=
  ⟨rfl, rfl, rfl, rfl, rfl⟩

/-- C2 amended: for a conditional stage, if the first skip_reason value found across
its declared dependency outputs is truthy, the runner is not invoked, one skipped
event is emitted, the recorded output is StageOutput.skip with that reason, and the
stage still counts as completed (the run, when it returns, binds the stage to that
SKIP output, unlocking dependents like any other completion).  A dependency with
SKIP status alone does not trigger this. -/
theorem claim_C2_amended (g : List (String × UnifiedStageSpec)) (order : List String)
    (hv : validSchedule g order = true) (i : Nat) (e : TraceEntry)
    (spec : UnifiedStageSpec) (v : Val)
    (he : (runGraph g order).2.get? i = some e)
    (hspec : alookup g e.stage = some spec)
    (hcond : spec.conditional = true)
    (hsig : e.inputs.get "skip_reason" = some v)
    (htruthy : v.truthy = true) :
    e.attempt = ⟨false, [GEvent.stageSkipped spec.name v],
        Except.ok (StageOutput.skipOut v [])⟩
    ∧ ∀ m, (runGraph g order).1 = RunResult.completed m →
        alookup m e.stage = some (StageOutput.skipOut v []) := by
  have hmem : e ∈ (runGraph g order).2 := List.get?_mem he
  obtain ⟨spec', hspec', hinp, hatt⟩ := runAux_entry_good g order [] [] (by simp) e hmem
  have hsp : spec' = spec := Option.some.inj (hspec'.symm.trans hspec)
  subst hsp
  have hskip : skipSignal e.inputs = some v := by
    rw [skipSignal, hsig]
    simp [htruthy]
  have hatt2 : e.attempt = ⟨false, [GEvent.stageSkipped spec'.name v],
      Except.ok (StageOutput.skipOut v [])⟩ := by
    rw [hatt, runStage, hcond]
    simp [hskip]
  refine ⟨hatt2, ?_⟩
  intro m hm
  exact (runAux_recorded g order [] [] [] (by simp) hv m hm).2 e hmem (by simp)
    (StageOutput.skipOut v []) (by rw [hatt2])

/-- Router stage publishing a truthy skip_reason, for the C2 witness. -/
def routerA : UnifiedStageSpec :=
  ⟨"router", fun _ => RunnerResult.retDict [("skip_reason", Val.s "noop")],
    StageKind.route, [], false⟩

/-- Conditional worker depending on the router, for the C2 witness. -/
def workerB : UnifiedStageSpec :=
  ⟨"worker", fun _ => RunnerResult.retDict [("ran", Val.b true)], StageKind.work,
    ["router"], true⟩

/-- The conditional-skip witness graph. -/
def gCond : List (String × UnifiedStageSpec) := [("router", routerA), ("worker", workerB)]

/-- The trace entry of the conditional worker in the witness run. -/
def condEntry : TraceEntry :=
  mkEntry workerB "worker" [("router", StageOutput.okOut [("skip_reason", Val.s "noop")])]

theorem claim_C2_witness :
    validSchedule gCond ["router", "worker"] = true
    ∧ (runGraph gCond ["router", "worker"]).2.get? 1 = some condEntry
    ∧ (condEntry.attempt = ⟨false, [GEvent.stageSkipped workerB.name (Val.s "noop")],
          Except.ok (StageOutput.skipOut (Val.s "noop") [])⟩
        ∧ ∀ m, (runGraph gCond ["router", "worker"]).1 = RunResult.completed m →
            alookup m condEntry.stage = some (StageOutput.skipOut (Val.s "noop") [])) :=
  ⟨rfl, rfl,
    claim_C2_amended gCond ["router", "worker"] rfl 1 condEntry workerB (Val.s "noop")
      rfl rfl rfl rfl rfl⟩

/-- C3: a stage output with status CANCEL makes the run raise UnifiedPipelineCancelled
carrying the stage name, the reason read verbatim from the cancel_reason data entry
(when present), and the completed map so far including the cancelling stage; the
orchestrator maps this exception to the cancelled run record with success and no
error. -/
theorem claim_C3_cancel_propagation (g : List (String × UnifiedStageSpec))
    (order : List String) (i : Nat) (e : TraceEntry) (out : StageOutput)
    (he : (runGraph g order).2.get? i = some e)
    (hok : e.attempt.outcome = Except.ok out)
    (hst : out.status = StageStatus.cancel) :
    (runGraph g order).1
        = RunResult.cancelled e.stage (cancelReasonOf out) (e.pool ++ [(e.stage, out)])
    ∧ (∀ r, alookup out.data "cancel_reason" = some r → cancelReasonOf out = r)
    ∧ (alookup (e.pool ++ [(e.stage, out)]) e.stage).isSome
    ∧ orchestratorTerminal (runGraph g order).1 = ⟨"cancelled", true, none⟩ := by
  have hmem : e ∈ (runGraph g order).2 := List.get?_mem he
  have hres : (runGraph g order).1
      = RunResult.cancelled e.stage (cancelReasonOf out) (e.pool ++ [(e.stage, out)]) :=
    runAux_cancel_result g order [] [] e out hmem (by simp) hok hst
  refine ⟨hres, ?_, ?_, ?_⟩
  · intro r hr
    simp [cancelReasonOf, hr]
  · rw [alookup_append]
    cases halo : alookup e.pool e.stage with
    | none => simp
    | some v => simp
  · rw [hres]
    rfl

/-- First stage of the graceful-cancel witness graph. -/
def okA : UnifiedStageSpec :=
  ⟨"a", fun _ => RunnerResult.retDict [("x", Val.i 1)], StageKind.work, [], false⟩

/-- Cancelling stage of the graceful-cancel witness graph. -/
def cancelB : UnifiedStageSpec :=
  ⟨"b", fun _ => RunnerResult.retOutput (StageOutput.cancelOut (Val.s "no_speech") []),
    StageKind.work, ["a"], false⟩

/-- Downstream stage that never runs in the graceful-cancel witness. -/
def afterC : UnifiedStageSpec :=
  ⟨"c", fun _ => RunnerResult.retNone, StageKind.work, ["b"], false⟩

/-- The graceful-cancel witness graph. -/
def gCancel : List (String × UnifiedStageSpec) :=
  [("a", okA), ("b", cancelB), ("c", afterC)]

/-- The trace entry of the cancelling stage in the witness run. -/
def cancelEntry : TraceEntry :=
  mkEntry cancelB "b" [("a", StageOutput.okOut [("x", Val.i 1)])]

theorem claim_C3_witness :
    (runGraph gCancel ["a", "b", "c"]).2.get? 1 = some cancelEntry
    ∧ cancelEntry.attempt.outcome = Except.ok (StageOutput.cancelOut (Val.s "no_speech") [])
    ∧ ((runGraph gCancel ["a", "b", "c"]).1
          = RunResult.cancelled cancelEntry.stage
              (cancelReasonOf (StageOutput.cancelOut (Val.s "no_speech") []))
              (cancelEntry.pool
                ++ [(cancelEntry.stage, StageOutput.cancelOut (Val.s "no_speech") [])])
        ∧ (∀ r, alookup (StageOutput.cancelOut (Val.s "no_speech") []).data "cancel_reason"
              = some r → cancelReasonOf (StageOutput.cancelOut (Val.s "no_speech") []) = r)
        ∧ (alookup (cancelEntry.pool
              ++ [(cancelEntry.stage, StageOutput.cancelOut (Val.s "no_speech") [])])
            cancelEntry.stage).isSome
        ∧ orchestratorTerminal (runGraph gCancel ["a", "b", "c"]).1
            = ⟨"cancelled", true, none⟩) :=
  ⟨rfl, rfl,
    claim_C3_cancel_propagation gCancel ["a", "b", "c"] 1 cancelEntry
      (StageOutput.cancelOut (Val.s "no_speech") []) rfl rfl rfl⟩

/-- Stage whose runner returns a FAIL StageOutput, for the C10 counterexample. -/
def failingSpec : UnifiedStageSpec :=
  ⟨"a", fun _ => RunnerResult.retOutput (StageOutput.failOut "boom" []),
    StageKind.work, [], false⟩

/-- The C10 counterexample graph. -/
def gFail : List (String × UnifiedStageSpec) := [("a", failingSpec)]

/-- C10 counterexample: a runner that returns a StageOutput with status FAIL does not
get its output recorded unchanged — the stage raises UnifiedStageExecutionError
naming the stage, and the run propagates it with nothing recorded for the stage. -/
theorem claim_C10_counterexample :
    failingSpec.runner ⟨[]⟩ = RunnerResult.retOutput (StageOutput.failOut "boom" [])
    ∧ (runGraph gFail ["a"]).1 = RunResult.failed "a" "boom"
    ∧ ((runGraph gFail ["a"]).2.map fun e => e.attempt.outcome)
        = [Except.error ⟨"a", "boom"⟩] :=
  ⟨rfl, rfl, rfl⟩

/-- C10 amended: for an invoked stage (no conditional skip fired), a runner result of
None is normalized and returned as StageOutput.ok() with empty data, a plain dict d
as StageOutput.ok(data=d), and a StageOutput with status other than FAIL passes
through unchanged and is recorded by the loop; a StageOutput with status FAIL makes
the stage fail with UnifiedStageExecutionError naming the stage, and any other
result type makes it fail the same way with the TypeError message wrapped. -/
theorem claim_C10_normalization (spec : UnifiedStageSpec) (inputs : StageInputs)
    (h : spec.conditional = false ∨ skipSignal inputs = none) :
    (spec.runner inputs = RunnerResult.retNone →
      runStage spec inputs
        = ⟨true, [GEvent.stageCompleted spec.name StageStatus.ok],
            Except.ok (StageOutput.okOut [])⟩)
    ∧ (∀ d, spec.runner inputs = RunnerResult.retDict d →
        runStage spec inputs
          = ⟨true, [GEvent.stageCompleted spec.name StageStatus.ok],
              Except.ok (StageOutput.okOut d)⟩)
    ∧ (∀ o, spec.runner inputs = RunnerResult.retOutput o →
        ¬ o.status = StageStatus.fail →
        runStage spec inputs
          = ⟨true, [GEvent.stageCompleted spec.name o.status], Except.ok o⟩)
    ∧ (∀ o, spec.runner inputs = RunnerResult.retOutput o →
        o.status = StageStatus.fail →
        runStage spec inputs
          = ⟨true, [GEvent.stageCompleted spec.name StageStatus.fail],
              Except.error ⟨spec.name, errorOr o.error "Stage failed"⟩⟩)
    ∧ (∀ ty, spec.runner inputs = RunnerResult.retOther ty →
        runStage spec inputs
          = ⟨true, [],
              Except.error ⟨spec.name,
                "Stage " ++ spec.name ++ " returned unsupported result type " ++ ty⟩⟩)
    ∧ (∀ (g : List (String × UnifiedStageSpec)) (n : String) (rest : List String)
          (completed : List (String × StageOutput)) (tr : List TraceEntry)
          (out : StageOutput),
        alookup g n = some spec →
        (runStage spec ⟨buildPrior spec completed⟩).outcome = Except.ok out →
        ¬ out.status = StageStatus.cancel →
        runAux g (n :: rest) completed tr
          = runAux g rest (completed ++ [(n, out)]) (tr ++ [mkEntry spec n completed])) := by
  have hbody : runStage spec inputs = runStageBody spec inputs := by
    rcases h with h | h
    · rw [runStage, h]
      simp
    · rw [runStage]
      by_cases hc : spec.conditional
      · rw [if_pos hc, h]
      · rw [if_neg hc]
  refine ⟨?_, ?_, ?_, ?_, ?_, ?_⟩
  · intro hr
    rw [hbody, runStageBody, hr]
    rfl
  · intro d hr
    rw [hbody, runStageBody, hr]
    rfl
  · intro o hr hnf
    rw [hbody, runStageBody, hr]
    simp [normalizeOutput, hnf]
  · intro o hr hf
    rw [hbody, runStageBody, hr]
    simp [normalizeOutput, hf]
  · intro ty hr
    rw [hbody, runStageBody, hr]
    rfl
  · intro g n rest completed tr out hg houtc hcan
    exact runAux_cons_step rest completed tr hg houtc hcan

/-- Plain stage returning a dict, for the C10 witness. -/
def plainSpec : UnifiedStageSpec :=
  ⟨"p", fun _ => RunnerResult.retDict [("k", Val.i 7)], StageKind.work, [], false⟩

theorem claim_C10_witness :
    (plainSpec.conditional = false ∨ skipSignal ⟨[]⟩ = none)
    ∧ (∀ d, plainSpec.runner ⟨[]⟩ = RunnerResult.retDict d →
        runStage plainSpec ⟨[]⟩
          = ⟨true, [GEvent.stageCompleted plainSpec.name StageStatus.ok],
              Except.ok (StageOutput.okOut d)⟩) :=
  ⟨Or.inl rfl, (claim_C10_normalization plainSpec ⟨[]⟩ (Or.inl rfl)).2.1⟩

theorem alookup_map_pair (names : List String) (f : String → LegacyStageResult)
    (k : String) :
    alookup (names.map (fun nm => (nm, f nm))) k
      = if k ∈ names then some (f k) else none := by
  induction names with
  | nil => simp
  | cons hd tl ih =>
      by_cases hk : hd = k
      · subst hk
        simp
      · simp [hk, Ne.symm hk, ih]

/-- One legacy stage for the C4 counterexample. -/
def legacySpecA : LegacyStageSpec :=
  ⟨"a", Except.ok ⟨"a", "completed", [], none⟩, [], false⟩

/-- The C4 counterexample graph. -/
def gLegacy : List (String × LegacyStageSpec) := [("a", legacySpecA)]

/-- C4 counterexample: with the cancellation signal set from the start, the legacy
StageGraph.run RETURNS the result map (with the synthetic failed entry) to the
caller — it breaks out of the loop and completes normally instead of propagating a
cancellation to the caller. -/
theorem claim_C4_counterexample :
    legacyRun gLegacy (fun _ => true) ["a"] = Except.ok [("a", syntheticCanceled "a")]
    ∧ (syntheticCanceled "a").status = "failed"
    ∧ (syntheticCanceled "a").error = some "Pipeline canceled" :=
  ⟨rfl, rfl, rfl⟩

/-- C4 amended: when the scheduler loop observes the cancellation signal, it fills
the result-map slot of every not-yet-completed stage with a synthetic failed result
whose error is exactly "Pipeline canceled" (recording no partial outputs for them),
keeps every already-completed output unchanged, and returns the result map to the
caller: the loop breaks and run completes normally, with no exception propagated. -/
theorem claim_C4_ambient_cancel_fill (g : List (String × LegacyStageSpec))
    (canceled : Nat → Bool) (n : String) (rest : List String) (i : Nat)
    (completed : List (String × LegacyStageResult)) (h : canceled i = true) :
    legacyRunAux g canceled (n :: rest) i completed
      = Except.ok (completed ++ legacyFill g completed)
    ∧ (∀ nm, nm ∈ g.map Prod.fst → alookup completed nm = none →
        alookup (completed ++ legacyFill g completed) nm = some (syntheticCanceled nm))
    ∧ (∀ nm v, alookup completed nm = some v →
        alookup (completed ++ legacyFill g completed) nm = some v)
    ∧ (syntheticCanceled n).status = "failed"
    ∧ (syntheticCanceled n).error = some "Pipeline canceled" := by
  refine ⟨?_, ?_, ?_, rfl, rfl⟩
  · simp [legacyRunAux, h]
  · intro nm hmem hnone
    rw [alookup_append, hnone]
    rw [legacyFill, alookup_map_pair]
    rw [if_pos]
    rw [List.mem_filter]
    exact ⟨hmem, by simp [hnone]⟩
  · intro nm v hv
    rw [alookup_append, hv]

theorem claim_C4_witness :
    ((fun _ : Nat => true) 0 = true)
    ∧ (legacyRunAux gLegacy (fun _ => true) ["a"] 0 []
          = Except.ok ([] ++ legacyFill gLegacy [])
        ∧ (∀ nm, nm ∈ gLegacy.map Prod.fst →
            alookup ([] : List (String × LegacyStageResult)) nm = none →
            alookup ([] ++ legacyFill gLegacy []) nm = some (syntheticCanceled nm))
        ∧ (∀ nm v, alookup ([] : List (String × LegacyStageResult)) nm = some v →
            alookup ([] ++ legacyFill gLegacy []) nm = some v)
        ∧ (syntheticCanceled "a").status = "failed"
        ∧ (syntheticCanceled "a").error = some "Pipeline canceled") :=
  ⟨rfl, claim_C4_ambient_cancel_fill gLegacy (fun _ => true) "a" [] 0 [] rfl⟩

@[simp] theorem asObj_obj (l : List (String × Val)) : asObj (Val.obj l) = some l := rfl

@[simp] theorem asArr_arr (l : List Val) : asArr (Val.arr l) = some l := rfl

@[simp] theorem asStr_s (v : String) : asStr (Val.s v) = some v := rfl

@[simp] theorem asOptStr_optStrVal (o : Option String) : asOptStr (optStrVal o) = some o := by
  cases o <;> rfl

@[simp] theorem truthy_null : Val.truthy Val.null = false := rfl

@[simp] theorem truthy_obj_cons (k : String) (v : Val) (l : List (String × Val)) :
    Val.truthy (Val.obj ((k, v) :: l)) = true := rfl

@[simp] theorem dget_nil (key : String) (d : Val) : dget [] key d = d := rfl

@[simp] theorem dget_cons (k : String) (v : Val) (rest : List (String × Val))
    (key : String) (d : Val) :
    dget ((k, v) :: rest) key d = if k = key then v else dget rest key d := by
  rw [dget, alookup_cons]
  split <;> simp [dget]

theorem truthy_s_of_ne {v : String} (h : ¬ v = "") : Val.truthy (Val.s v) = true := by
  simp [Val.truthy, h]

theorem asStrList_map (l : List String) : asStrList (l.map Val.s) = some l := by
  induction l with
  | nil => rfl
  | cons hd tl ih => simp [asStrList, ih]

theorem parseOptUuid_of (data : List (String × Val)) (key : String) (o : Option String)
    (hne : nonEmptyOpt o = true)
    (hget : dget data key Val.null = optStrVal o) :
    parseOptUuid data key = some o := by
  rw [parseOptUuid, hget]
  cases o with
  | none => simp [optStrVal]
  | some u =>
      rw [nonEmptyOpt] at hne
      simp only [optStrVal, truthy_s_of_ne (by simpa using hne), if_pos]
      rfl

theorem parseMessage_round (m : Message) (h : nonEmptyOpt m.timestamp = true) :
    parseMessage (messageToDict m) = some m := by
  obtain ⟨role, content, ts, md⟩ := m
  cases ts with
  | none => simp [parseMessage, messageToDict, dget, optStrVal]
  | some t =>
      rw [nonEmptyOpt] at h
      simp [parseMessage, messageToDict, dget, optStrVal,
        truthy_s_of_ne (by simpa using h)]

theorem parseMessages_round (msgs : List Message)
    (h : msgs.all (fun m => nonEmptyOpt m.timestamp) = true) :
    parseMessages (msgs.map messageToDict) = some msgs := by
  induction msgs with
  | nil => rfl
  | cons hd tl ih =>
      rw [List.all_cons, Bool.and_eq_true] at h
      simp [parseMessages, parseMessage_round hd h.1, ih h.2]

theorem parseDocument_round (d : DocumentEnrichment) :
    parseDocument (documentToDict d) = some d := by
  obtain ⟨di, dt, bl, md⟩ := d
  simp [parseDocument, documentToDict, dget]

theorem parseDocuments_round (docs : List DocumentEnrichment) :
    parseDocuments (docs.map documentToDict) = some docs := by
  induction docs with
  | nil => rfl
  | cons hd tl ih => simp [parseDocuments, parseDocument_round hd, ih]

theorem parseRouting_of (data : List (String × Val)) (rd : Option RoutingDecision)
    (hget : dget data "routing_decision" Val.null = routingToVal rd) :
    parseRouting data = some rd := by
  cases rd with
  | none =>
      rw [routingToVal] at hget
      simp [parseRouting, hget]
  | some r =>
      obtain ⟨a, p, t, re⟩ := r
      rw [routingToVal] at hget
      simp [parseRouting, hget]

theorem parseProfile_of (data : List (String × Val)) (prof : Option ProfileEnrichment)
    (hne : profileWf prof = true)
    (hget : dget data "profile" Val.null = profileToVal prof) :
    parseProfile data = some prof := by
  cases prof with
  | none =>
      rw [profileToVal] at hget
      simp [parseProfile, hget]
  | some p =>
      obtain ⟨uid, dn, prefs, goals⟩ := p
      rw [profileToVal] at hget
      have hne' : ¬ uid = "" := by simpa [profileWf] using hne
      simp [parseProfile, hget, truthy_s_of_ne hne', asStrList_map]

theorem parseMemory_of (data : List (String × Val)) (mem : Option MemoryEnrichment)
    (hget : dget data "memory" Val.null = memoryToVal mem) :
    parseMemory data = some mem := by
  cases mem with
  | none =>
      rw [memoryToVal] at hget
      simp [parseMemory, hget]
  | some m =>
      obtain ⟨rt, kf, ihs⟩ := m
      rw [memoryToVal] at hget
      simp [parseMemory, hget, asStrList_map]

theorem parseCreatedAt_of (now : String) (data : List (String × Val)) (ca : String)
    (hne : ¬ ca = "")
    (hget : dget data "created_at" Val.null = Val.s ca) :
    parseCreatedAt now data = some ca := by
  simp [parseCreatedAt, hget, truthy_s_of_ne hne]

/-- C5: from_dict inverts to_dict field for field on every snapshot Python can build
(UUID and datetime slots hold their canonical non-empty serializations): the round
trip preserves all six identifiers, topology and execution_mode, the ordered
messages with timestamps and metadata, routing decision, profile, memory and
document enrichments, web_results, input_text, input_audio_duration_ms, extensions,
created_at and metadata. -/
theorem claim_C5_snapshot_roundtrip (now : String) (s : ContextSnapshot)
    (h : wfSnapshot s = true) :
    ContextSnapshot.fromDict now (ContextSnapshot.toDict s) = some s := by
  rw [wfSnapshot] at h
  simp only [Bool.and_eq_true] at h
  obtain ⟨⟨⟨⟨⟨⟨⟨⟨hpid, hrid⟩, hsid⟩, huid⟩, hoid⟩, hiid⟩, hprof⟩, hca⟩, hmsgs⟩ := h
  have hca' : ¬ s.created_at = "" := of_decide_eq_true hca
  have dmsg : dget (ContextSnapshot.toDict s) "messages" (Val.arr [])
      = Val.arr (s.messages.map messageToDict) := by
    simp [ContextSnapshot.toDict]
  have ddocs : dget (ContextSnapshot.toDict s) "documents" (Val.arr [])
      = Val.arr (s.documents.map documentToDict) := by
    simp [ContextSnapshot.toDict]
  have drout : dget (ContextSnapshot.toDict s) "routing_decision" Val.null
      = routingToVal s.routing_decision := by
    simp [ContextSnapshot.toDict]
  have dprof : dget (ContextSnapshot.toDict s) "profile" Val.null
      = profileToVal s.profile := by
    simp [ContextSnapshot.toDict]
  have dmem : dget (ContextSnapshot.toDict s) "memory" Val.null
      = memoryToVal s.memory := by
    simp [ContextSnapshot.toDict]
  have dca : dget (ContextSnapshot.toDict s) "created_at" Val.null
      = Val.s s.created_at := by
    simp [ContextSnapshot.toDict]
  have hcontent : fromDictContent now (ContextSnapshot.toDict s)
      = some (s.messages, s.routing_decision, s.profile, s.memory, s.documents,
          s.created_at) := by
    rw [fromDictContent, dmsg]
    rw [parseRouting_of (ContextSnapshot.toDict s) s.routing_decision drout]
    rw [parseProfile_of (ContextSnapshot.toDict s) s.profile hprof dprof]
    rw [parseMemory_of (ContextSnapshot.toDict s) s.memory dmem]
    rw [ddocs]
    rw [parseCreatedAt_of now (ContextSnapshot.toDict s) s.created_at hca' dca]
    simp [parseMessages_round s.messages hmsgs, parseDocuments_round s.documents]
  have hids : fromDictIds (ContextSnapshot.toDict s)
      = some (s.pipeline_run_id, s.request_id, s.session_id, s.user_id, s.org_id,
          s.interaction_id) := by
    rw [fromDictIds]
    rw [parseOptUuid_of (ContextSnapshot.toDict s) "pipeline_run_id" s.pipeline_run_id
      hpid (by simp [ContextSnapshot.toDict])]
    rw [parseOptUuid_of (ContextSnapshot.toDict s) "request_id" s.request_id
      hrid (by simp [ContextSnapshot.toDict])]
    rw [parseOptUuid_of (ContextSnapshot.toDict s) "session_id" s.session_id
      hsid (by simp [ContextSnapshot.toDict])]
    rw [parseOptUuid_of (ContextSnapshot.toDict s) "user_id" s.user_id
      huid (by simp [ContextSnapshot.toDict])]
    rw [parseOptUuid_of (ContextSnapshot.toDict s) "org_id" s.org_id
      hoid (by simp [ContextSnapshot.toDict])]
    rw [parseOptUuid_of (ContextSnapshot.toDict s) "interaction_id" s.interaction_id
      hiid (by simp [ContextSnapshot.toDict])]
    rfl
  have hmisc : fromDictMisc (ContextSnapshot.toDict s)
      = some (s.topology, s.execution_mode, s.web_results, s.input_text,
          s.input_audio_duration_ms, s.extensions, s.metadata) := by
    rw [fromDictMisc]
    have d1 : dget (ContextSnapshot.toDict s) "topology" Val.null
        = optStrVal s.topology := by simp [ContextSnapshot.toDict]
    have d2 : dget (ContextSnapshot.toDict s) "execution_mode" Val.null
        = optStrVal s.execution_mode := by simp [ContextSnapshot.toDict]
    have d3 : dget (ContextSnapshot.toDict s) "web_results" (Val.arr [])
        = Val.arr s.web_results := by simp [ContextSnapshot.toDict]
    have d4 : dget (ContextSnapshot.toDict s) "input_text" Val.null
        = optStrVal s.input_text := by simp [ContextSnapshot.toDict]
    have d5 : parseOptIntSlot (ContextSnapshot.toDict s) "input_audio_duration_ms"
        = some s.input_audio_duration_ms := by
      rw [parseOptIntSlot]
      have dv : dget (ContextSnapshot.toDict s) "input_audio_duration_ms" Val.null
          = optIntVal s.input_audio_duration_ms := by simp [ContextSnapshot.toDict]
      rw [dv]
      cases s.input_audio_duration_ms <;> rfl
    have d6 : dget (ContextSnapshot.toDict s) "extensions" (Val.obj [])
        = Val.obj s.extensions := by simp [ContextSnapshot.toDict]
    have d7 : dget (ContextSnapshot.toDict s) "metadata" (Val.obj [])
        = Val.obj s.metadata := by simp [ContextSnapshot.toDict]
    rw [d1, d2, d3, d4, d5, d6, d7]
    simp
  rw [ContextSnapshot.fromDict, hcontent, hids, hmisc]
  rfl

/-- Fully populated snapshot used by the C5 witness. -/
def snapW : ContextSnapshot :=
  ⟨some "7f000000-0000-0000-0000-000000000001", some "7f000000-0000-0000-0000-000000000002",
   some "7f000000-0000-0000-0000-000000000003", none, none,
   some "7f000000-0000-0000-0000-000000000004", some "fast_kernel", some "practice",
   [⟨"user", "hello", some "2024-01-01T00:00:00+00:00", [("lang", Val.s "en")]⟩,
    ⟨"assistant", "hi", none, []⟩],
   some ⟨"coach", "full", "fast_kernel", some "best fit"⟩,
   some ⟨"7f000000-0000-0000-0000-000000000005", some "Ada",
     [("tone", Val.s "warm")], ["learn"]⟩,
   some ⟨["math"], ["prefers text"], some "returning user"⟩,
   [⟨some "d1", some "note", [Val.obj [("text", Val.s "x")]], [("v", Val.i 1)]⟩],
   [Val.obj [("url", Val.s "https://example.com")]],
   some "hello", some 1200, [("custom", Val.b true)],
   "2024-01-01T00:00:01+00:00", [("trace", Val.s "t")]⟩

theorem claim_C5_witness :
    wfSnapshot snapW = true
    ∧ ContextSnapshot.fromDict "2024-02-02T00:00:00+00:00"
        (ContextSnapshot.toDict snapW) = some snapW :=
  ⟨rfl, claim_C5_snapshot_roundtrip "2024-02-02T00:00:00+00:00" snapW rfl⟩

/-! Cancellation-cascade facts. -/

theorem reachAt_src (t : Tracker) {root x : RunId} {d : Nat} (h : ReachAt t root x d) :
    (x = root ∧ d = 0)
    ∨ ∃ c, c ∈ t.getChildren root ∧ ∃ d', ReachAt t c x d' ∧ d = d' + 1 := by
  induction h with
  | refl => exact Or.inl ⟨rfl, rfl⟩
  | @step p dp c hp hc ih =>
      rcases ih with ⟨rfl, rfl⟩ | ⟨c0, hc0, d', hr', rfl⟩
      · exact Or.inr ⟨c, hc, 0, ReachAt.refl, rfl⟩
      · exact Or.inr ⟨c0, hc0, d' + 1, ReachAt.step hr' hc, rfl⟩

/-- Once a run is in the canceled set it stays there (monotonicity of the cascade). -/
theorem cancelRec_mono (t : Tracker) (emit : Bool) (reason : String) :
    ∀ (fuel : Nat) (cur : RunId) (depth : Nat) (st st' : CancelSt),
      cancelRec t emit reason fuel cur depth st = some st' →
      ∀ x ∈ st.canceledRuns, x ∈ st'.canceledRuns := by
  intro fuel
  induction fuel with
  | zero =>
      intro cur depth st st' h
      rw [cancelRec] at h
      cases h
  | succ fuel ih =>
      have hseq : ∀ (cs : List RunId) (depth : Nat) (st st' : CancelSt),
          cancelSeq (fun c s => cancelRec t emit reason fuel c (depth + 1) s) cs st
            = some st' →
          ∀ x ∈ st.canceledRuns, x ∈ st'.canceledRuns := by
        intro cs
        induction cs with
        | nil =>
            intro depth st st' h
            rw [cancelSeq] at h
            cases h
            exact fun x hx => hx
        | cons c cs ihs =>
            intro depth st st' h
            rw [cancelSeq] at h
            cases hc : cancelRec t emit reason fuel c (depth + 1) st with
            | none => rw [hc] at h; cases h
            | some st1 =>
                rw [hc] at h
                intro x hx
                exact ihs depth st1 st' h x (ih c (depth + 1) st st1 hc x hx)
      intro cur depth st st' h
      rw [cancelRec] at h
      cases hs : cancelSeq (fun c s => cancelRec t emit reason fuel c (depth + 1) s)
          (t.getChildren cur) st with
      | none => rw [hs] at h; cases h
      | some st1 =>
          rw [hs] at h
          cases h
          intro x hx
          have hx1 := hseq _ depth st st1 hs x hx
          rw [markCanceled]
          by_cases hcur : cur ∈ st1.canceledRuns
          · rw [if_pos hcur]
            exact hx1
          · rw [if_neg hcur]
            exact List.mem_cons_of_mem _ hx1

/-- The cascade marks the run it was called on. -/
theorem cancelRec_self (t : Tracker) (emit : Bool) (reason : String)
    (fuel : Nat) (cur : RunId) (depth : Nat) (st st' : CancelSt)
    (h : cancelRec t emit reason (fuel + 1) cur depth st = some st') :
    cur ∈ st'.canceledRuns := by
  rw [cancelRec] at h
  cases hs : cancelSeq (fun c s => cancelRec t emit reason fuel c (depth + 1) s)
      (t.getChildren cur) st with
  | none => rw [hs] at h; cases h
  | some st1 =>
      rw [hs] at h
      cases h
      rw [markCanceled]
      by_cases hcur : cur ∈ st1.canceledRuns
      · rw [if_pos hcur]
        exact hcur
      · rw [if_neg hcur]
        exact List.mem_cons_self _ _

/-- The bookkeeping invariant of the cascade state: the per-call canceled list has no
duplicates, never lists a child after its parent, and every listed run is in the
canceled set together with all its tracked children. -/
def CancelInv (t : Tracker) (st : CancelSt) : Prop :=
  st.order.Nodup
  ∧ st.order.Pairwise (fun a b => b ∉ t.getChildren a)
  ∧ (∀ a ∈ st.order, ∀ c ∈ t.getChildren a, c ∈ st.canceledRuns)
  ∧ (∀ x ∈ st.order, x ∈ st.canceledRuns)

/-- How one cascade call transforms the state: the invariant is preserved, the
canceled set only grows, every newly canceled run is reachable from the root, and
the call appends matching blocks to the canceled list and the event buffer — one
event per newly canceled run, carrying its reach depth, its tracked parent and the
reason. -/
def CancelPost (t : Tracker) (r : RunId) (reason : String) (st st' : CancelSt) : Prop :=
  CancelInv t st'
  ∧ (∀ x ∈ st.canceledRuns, x ∈ st'.canceledRuns)
  ∧ (∀ x ∈ st'.canceledRuns, x ∈ st.canceledRuns ∨ ∃ d, ReachAt t r x d)
  ∧ ∃ Δ Δe, st'.order = st.order ++ Δ ∧ st'.events = st.events ++ Δe
      ∧ Δe.map (fun ev => ev.runId) = Δ
      ∧ (∀ ev ∈ Δe, ReachAt t r ev.runId ev.depth ∧ ev.reason = reason
           ∧ ev.parent = t.getParent ev.runId)
      ∧ (∀ x ∈ Δ, x ∉ st.canceledRuns)
      ∧ (∀ x ∈ st'.canceledRuns, x ∈ st.canceledRuns ∨ x ∈ Δ)

theorem CancelPost.of_inv {t : Tracker} {r : RunId} {reason : String} {st : CancelSt}
    (h : CancelInv t st) : CancelPost t r reason st st := by
  refine ⟨h, fun x hx => hx, fun x hx => Or.inl hx, [], [], by simp, by simp, rfl,
    by simp, by simp, fun x hx => Or.inl hx⟩

theorem CancelPost.trans {t : Tracker} {r : RunId} {reason : String}
    {st st1 st' : CancelSt} (h1 : CancelPost t r reason st st1)
    (h2 : CancelPost t r reason st1 st') : CancelPost t r reason st st' := by
  obtain ⟨hi1, hm1, hs1, Δ1, Δe1, ho1, he1, hmap1, hev1, hnew1, hcov1⟩ := h1
  obtain ⟨hi2, hm2, hs2, Δ2, Δe2, ho2, he2, hmap2, hev2, hnew2, hcov2⟩ := h2
  refine ⟨hi2, fun x hx => hm2 x (hm1 x hx), ?_, Δ1 ++ Δ2, Δe1 ++ Δe2, ?_, ?_, ?_, ?_, ?_, ?_⟩
  · intro x hx
    rcases hs2 x hx with hx1 | hr
    · exact hs1 x hx1
    · exact Or.inr hr
  · rw [ho2, ho1, List.append_assoc]
  · rw [he2, he1, List.append_assoc]
  · rw [List.map_append, hmap1, hmap2]
  · intro ev hev
    rcases List.mem_append.mp hev with h' | h'
    · exact hev1 ev h'
    · exact hev2 ev h'
  · intro x hx
    rcases List.mem_append.mp hx with h' | h'
    · exact hnew1 x h'
    · intro hmem
      exact hnew2 x h' (hm1 x hmem)
  · intro x hx
    rcases hcov2 x hx with h' | h'
    · rcases hcov1 x h' with h'' | h''
      · exact Or.inl h''
      · exact Or.inr (List.mem_append.mpr (Or.inl h''))
    · exact Or.inr (List.mem_append.mpr (Or.inr h'))

theorem markCanceled_mono (t : Tracker) (emit : Bool) (reason : String) (cur : RunId)
    (depth : Nat) (st : CancelSt) :
    ∀ x ∈ st.canceledRuns, x ∈ (markCanceled t emit reason cur depth st).canceledRuns := by
  intro x hx
  rw [markCanceled]
  by_cases hcur : cur ∈ st.canceledRuns
  · rw [if_pos hcur]
    exact hx
  · rw [if_neg hcur]
    exact List.mem_cons_of_mem _ hx

theorem markCanceled_self (t : Tracker) (emit : Bool) (reason : String) (cur : RunId)
    (depth : Nat) (st : CancelSt) :
    cur ∈ (markCanceled t emit reason cur depth st).canceledRuns := by
  rw [markCanceled]
  by_cases hcur : cur ∈ st.canceledRuns
  · rw [if_pos hcur]
    exact hcur
  · rw [if_neg hcur]
    exact List.mem_cons_self _ _

theorem markCanceled_post (t : Tracker) (r : RunId) (reason : String) {cur : RunId}
    {depth : Nat} {st1 : CancelSt} (hinv : CancelInv t st1)
    (hreach : ReachAt t r cur depth)
    (hchild : ∀ c ∈ t.getChildren cur, c ∈ st1.canceledRuns) :
    CancelPost t r reason st1 (markCanceled t true reason cur depth st1) := by
  obtain ⟨hnd, hpw, hch, hsub⟩ := hinv
  rw [markCanceled]
  by_cases hcur : cur ∈ st1.canceledRuns
  · rw [if_pos hcur]
    exact CancelPost.of_inv ⟨hnd, hpw, hch, hsub⟩
  · rw [if_neg hcur]
    have hordmem : cur ∉ st1.order := fun hmem => hcur (hsub cur hmem)
    refine ⟨⟨?_, ?_, ?_, ?_⟩, ?_, ?_,
      [cur], [⟨cur, t.getParent cur, reason, depth⟩], rfl, by simp, by simp, ?_, ?_, ?_⟩
    · simp [List.nodup_append, hnd, hordmem]
    · rw [List.pairwise_append]
      refine ⟨hpw, List.pairwise_singleton _ _, ?_⟩
      intro a ha b hb
      rcases List.mem_singleton.mp hb with rfl
      intro hbc
      exact hcur (hch a ha b hbc)
    · intro a ha c hc
      rcases List.mem_append.mp ha with h' | h'
      · exact List.mem_cons_of_mem _ (hch a h' c hc)
      · rcases List.mem_singleton.mp h' with rfl
        exact List.mem_cons_of_mem _ (hchild c hc)
    · intro x hx
      rcases List.mem_append.mp hx with h' | h'
      · exact List.mem_cons_of_mem _ (hsub x h')
      · rcases List.mem_singleton.mp h' with rfl
        exact List.mem_cons_self _ _
    · intro x hx
      exact List.mem_cons_of_mem _ hx
    · intro x hx
      rcases List.mem_cons.mp hx with rfl | h'
      · exact Or.inr ⟨depth, hreach⟩
      · exact Or.inl h'
    · intro ev hev
      rcases List.mem_singleton.mp hev with rfl
      exact ⟨hreach, rfl, rfl⟩
    · intro x hx
      rcases List.mem_singleton.mp hx with rfl
      exact hcur
    · intro x hx
      rcases List.mem_cons.mp hx with rfl | h'
      · exact Or.inr (List.mem_singleton.mpr rfl)
      · exact Or.inl h'

theorem cancelSeq_mono (t : Tracker) (emit : Bool) (reason : String) (fuel : Nat) :
    ∀ (cs : List RunId) (depth : Nat) (st st' : CancelSt),
      cancelSeq (fun c s => cancelRec t emit reason fuel c (depth + 1) s) cs st
        = some st' →
      ∀ x ∈ st.canceledRuns, x ∈ st'.canceledRuns := by
  intro cs
  induction cs with
  | nil =>
      intro depth st st' h
      rw [cancelSeq] at h
      cases h
      exact fun x hx => hx
  | cons c cs ihs =>
      intro depth st st' h
      rw [cancelSeq] at h
      cases hc : cancelRec t emit reason fuel c (depth + 1) st with
      | none => rw [hc] at h; cases h
      | some st1 =>
          rw [hc] at h
          intro x hx
          exact ihs depth st1 st' h x (cancelRec_mono t emit reason fuel c (depth + 1) st st1 hc x hx)

/-- The full behavior of one cancel_recursive call: the state transforms per
CancelPost, the current run ends up canceled, and so does everything reachable from
it. -/
theorem cancelRec_post (t : Tracker) (reason : String) (r : RunId) :
    ∀ (fuel : Nat) (cur : RunId) (depth : Nat) (st st' : CancelSt),
      cancelRec t true reason fuel cur depth st = some st' →
      ReachAt t r cur depth →
      CancelInv t st →
      CancelPost t r reason st st'
      ∧ cur ∈ st'.canceledRuns
      ∧ (∀ x d', ReachAt t cur x d' → x ∈ st'.canceledRuns) := by
  intro fuel
  induction fuel with
  | zero =>
      intro cur depth st st' h
      rw [cancelRec] at h
      cases h
  | succ fuel ih =>
      have hseq : ∀ (cs : List RunId) (depth : Nat) (st st' : CancelSt),
          cancelSeq (fun c s => cancelRec t true reason fuel c (depth + 1) s) cs st
            = some st' →
          (∀ c ∈ cs, ReachAt t r c (depth + 1)) →
          CancelInv t st →
          CancelPost t r reason st st'
          ∧ (∀ c ∈ cs, ∀ x d', ReachAt t c x d' → x ∈ st'.canceledRuns) := by
        intro cs
        induction cs with
        | nil =>
            intro depth st st' h hr hinv
            rw [cancelSeq] at h
            cases h
            exact ⟨CancelPost.of_inv hinv, by simp⟩
        | cons c cs ihs =>
            intro depth st st' h hr hinv
            rw [cancelSeq] at h
            cases hc : cancelRec t true reason fuel c (depth + 1) st with
            | none => rw [hc] at h; cases h
            | some st1 =>
                rw [hc] at h
                obtain ⟨hp1, hself1, hcomp1⟩ :=
                  ih c (depth + 1) st st1 hc (hr c (List.mem_cons_self _ _)) hinv
                obtain ⟨hp2, hcomp2⟩ := ihs depth st1 st' h
                  (fun c' hc' => hr c' (List.mem_cons_of_mem _ hc')) hp1.1
                refine ⟨hp1.trans hp2, ?_⟩
                intro c' hc' x d' hrx
                rcases List.mem_cons.mp hc' with rfl | hmem
                · exact hp2.2.1 x (hcomp1 x d' hrx)
                · exact hcomp2 c' hmem x d' hrx
      intro cur depth st st' h hreach hinv
      rw [cancelRec] at h
      cases hs : cancelSeq (fun c s => cancelRec t true reason fuel c (depth + 1) s)
          (t.getChildren cur) st with
      | none => rw [hs] at h; cases h
      | some st1 =>
          rw [hs] at h
          cases h
          obtain ⟨hp1, hcomp1⟩ := hseq (t.getChildren cur) depth st st1 hs
            (fun c hc => ReachAt.step hreach hc) hinv
          have hchild : ∀ c ∈ t.getChildren cur, c ∈ st1.canceledRuns := fun c hc =>
            hcomp1 c hc c 0 ReachAt.refl
          have hpm := markCanceled_post t r reason hp1.1 hreach hchild
          refine ⟨hp1.trans hpm, markCanceled_self t true reason cur depth st1, ?_⟩
          intro x d' hrx
          rcases reachAt_src t hrx with ⟨rfl, rfl⟩ | ⟨c, hc, d'', hr'', rfl⟩
          · exact markCanceled_self t true reason x depth st1
          · exact hpm.2.1 x (hcomp1 c hc x d'' hr'')

/-- A second cascade over a state that already contains everything the first one
canceled is a no-op: no new cancels, no new events. -/
theorem cancelRec_idem (t : Tracker) (emit : Bool) (reason : String) :
    ∀ (fuel : Nat) (cur : RunId) (depth : Nat) (st st' : CancelSt)
      (S : List RunId) (l : List RunId) (ev : List CancelEvent),
      cancelRec t emit reason fuel cur depth st = some st' →
      (∀ x ∈ st'.canceledRuns, x ∈ S) →
      cancelRec t emit reason fuel cur depth ⟨S, l, ev⟩ = some ⟨S, l, ev⟩ := by
  intro fuel
  induction fuel with
  | zero =>
      intro cur depth st st' S l ev h
      rw [cancelRec] at h
      cases h
  | succ fuel ih =>
      have hseq : ∀ (cs : List RunId) (depth : Nat) (st st' : CancelSt)
          (S : List RunId) (l : List RunId) (ev : List CancelEvent),
          cancelSeq (fun c s => cancelRec t emit reason fuel c (depth + 1) s) cs st
            = some st' →
          (∀ x ∈ st'.canceledRuns, x ∈ S) →
          cancelSeq (fun c s => cancelRec t emit reason fuel c (depth + 1) s) cs
            ⟨S, l, ev⟩ = some ⟨S, l, ev⟩ := by
        intro cs
        induction cs with
        | nil =>
            intro depth st st' S l ev _ _
            rw [cancelSeq]
        | cons c cs ihs =>
            intro depth st st' S l ev h hS
            rw [cancelSeq] at h
            cases hc : cancelRec t emit reason fuel c (depth + 1) st with
            | none => rw [hc] at h; cases h
            | some st1 =>
                rw [hc] at h
                have hsub1 : ∀ x ∈ st1.canceledRuns, x ∈ S := fun x hx =>
                  hS x (cancelSeq_mono t emit reason fuel cs depth st1 st' h x hx)
                rw [cancelSeq, ih c (depth + 1) st st1 S l ev hc hsub1]
                exact ihs depth st1 st' S l ev h hS
      intro cur depth st st' S l ev h hS
      rw [cancelRec] at h ⊢
      cases hs : cancelSeq (fun c s => cancelRec t emit reason fuel c (depth + 1) s)
          (t.getChildren cur) st with
      | none => rw [hs] at h; cases h
      | some st1 =>
          rw [hs] at h
          cases h
          have hsub1 : ∀ x ∈ st1.canceledRuns, x ∈ S := fun x hx =>
            hS x (markCanceled_mono t emit reason cur depth st1 x hx)
          have hcurS : cur ∈ S := hS cur (markCanceled_self t emit reason cur depth st1)
          rw [hseq (t.getChildren cur) depth st st1 S l ev hs hsub1]
          have hmark : markCanceled t emit reason cur depth ⟨S, l, ev⟩ = ⟨S, l, ev⟩ := by
            rw [markCanceled, if_pos hcurS]
          exact congrArg some hmark

/-- C8: cancel_with_children marks the given run and every tracked descendant as
canceled (and nothing else beyond the previously canceled set), lists the newly
canceled runs without duplicates and never a parent before one of its children
(depth-first, children first), emits exactly one pipeline.canceled event per newly
canceled run — aligned one-to-one with the canceled list and carrying the run's
depth relative to the root, its tracked parent and the reason — and is idempotent:
run again over the resulting canceled set it cancels nothing and emits nothing.
The fuel hypothesis states that the Python recursion terminates (it diverges on a
cyclic tracker). -/
theorem claim_C8_cancel_cascade (t : Tracker) (reason : String) (fuel : Nat)
    (r : RunId) (runs0 : List RunId) (st' : CancelSt)
    (h : cancelWithChildren t true reason fuel r runs0 = some st') :
    (∀ x, x ∈ st'.canceledRuns ↔ (x ∈ runs0 ∨ ∃ d, ReachAt t r x d))
    ∧ (∀ x, x ∈ st'.order ↔ (x ∉ runs0 ∧ ∃ d, ReachAt t r x d))
    ∧ st'.order.Nodup
    ∧ st'.order.Pairwise (fun a b => b ∉ t.getChildren a)
    ∧ st'.events.map (fun ev => ev.runId) = st'.order
    ∧ (∀ ev ∈ st'.events, ReachAt t r ev.runId ev.depth ∧ ev.reason = reason
         ∧ ev.parent = t.getParent ev.runId)
    ∧ cancelWithChildren t true reason fuel r st'.canceledRuns
        = some ⟨st'.canceledRuns, [], []⟩ := by
  have hinv0 : CancelInv t ⟨runs0, [], []⟩ :=
    ⟨List.nodup_nil, List.Pairwise.nil, by simp, by simp⟩
  obtain ⟨hpost, hself, hcomp⟩ :=
    cancelRec_post t reason r fuel r 0 ⟨runs0, [], []⟩ st' h ReachAt.refl hinv0
  obtain ⟨⟨hnd, hpw, hch, hsub⟩, hmono, hsound, Δ, Δe, ho, he, hmap, hev, hnew, hcov⟩ :=
    hpost
  have hoΔ : st'.order = Δ := by simpa using ho
  have heΔ : st'.events = Δe := by simpa using he
  refine ⟨?_, ?_, hnd, hpw, ?_, ?_, ?_⟩
  · intro x
    constructor
    · intro hx
      exact hsound x hx
    · intro hx
      rcases hx with hx | ⟨d, hd⟩
      · exact hmono x hx
      · exact hcomp x d hd
  · intro x
    constructor
    · intro hx
      have hxc : x ∈ st'.canceledRuns := hsub x hx
      have hnr : x ∉ runs0 := by
        rw [hoΔ] at hx
        exact hnew x hx
      rcases hsound x hxc with h' | h'
      · exact absurd h' hnr
      · exact ⟨hnr, h'⟩
    · intro ⟨hnr, d, hd⟩
      have hxc : x ∈ st'.canceledRuns := hcomp x d hd
      rcases hcov x hxc with h' | h'
      · exact absurd h' hnr
      · rw [hoΔ]
        exact h'
  · rw [heΔ, hoΔ]
    exact hmap
  · intro ev hevmem
    rw [heΔ] at hevmem
    exact hev ev hevmem
  · exact cancelRec_idem t true reason fuel r 0 ⟨runs0, [], []⟩ st'
      st'.canceledRuns [] [] h (fun x hx => hx)

/-- The tracker of the C8 witness: run 0 spawned run 1, which spawned run 2. -/
def trackW : Tracker := ⟨[(0, [1]), (1, [2])], [(1, 0), (2, 1)]⟩

/-- The state the C8 witness cascade produces: all three runs canceled, children
before parents, one event each at its depth. -/
def cascadeSt : CancelSt :=
  ⟨[0, 1, 2], [2, 1, 0],
   [⟨2, some 1, "user_requested", 2⟩, ⟨1, some 0, "user_requested", 1⟩,
    ⟨0, none, "user_requested", 0⟩]⟩

theorem claim_C8_witness :
    cancelWithChildren trackW true "user_requested" 5 0 [] = some cascadeSt
    ∧ ((∀ x, x ∈ cascadeSt.canceledRuns ↔ (x ∈ ([] : List RunId)
          ∨ ∃ d, ReachAt trackW 0 x d))
        ∧ (∀ x, x ∈ cascadeSt.order ↔ (x ∉ ([] : List RunId)
            ∧ ∃ d, ReachAt trackW 0 x d))
        ∧ cascadeSt.order.Nodup
        ∧ cascadeSt.order.Pairwise (fun a b => b ∉ trackW.getChildren a)
        ∧ cascadeSt.events.map (fun ev => ev.runId) = cascadeSt.order
        ∧ (∀ ev ∈ cascadeSt.events, ReachAt trackW 0 ev.runId ev.depth
             ∧ ev.reason = "user_requested" ∧ ev.parent = trackW.getParent ev.runId)
        ∧ cancelWithChildren trackW true "user_requested" 5 0 cascadeSt.canceledRuns
            = some ⟨cascadeSt.canceledRuns, [], []⟩) :=
  ⟨rfl, claim_C8_cancel_cascade trackW "user_requested" 5 0 [] cascadeSt rfl⟩

end Stageflow
